import Mathlib

/-!
A verification development for the WAL writer and replication relay of a
single-writer database node.  The definitions below are a shallow embedding
of `src/box/wal.c` and `src/box/relay.cc`: pure functions mirror the C
control flow, machine-level effects (xlog encoding, fallocate) are supplied
by explicit oracles, and cross-thread message passing is modelled by
explicit state passing.  Helpers that live outside the two source files
(vclock.h, xlog.c, mclock.c, journal.h) are modelled from the spec and are
marked as such in their doc comments.  Wall-clock timestamps (`tm` fields)
and the in-memory xrow ring contents are not modelled: no claim under
consideration depends on them.
-/

set_option maxRecDepth 4000

/-- Modelled from the spec (vclock.h is not under src/): a vector clock is a
sparse mapping from instance id to an LSN counter; absent components read 0.
We represent it as a list indexed by instance id. -/
abbrev VClock := List Int

/-- Modelled from the spec: `get(id)` — read one component, 0 when absent. -/
def vclock_get : VClock → Nat → Int
  | [], _ => 0
  | a :: _, 0 => a
  | _ :: v, i + 1 => vclock_get v i

/-- Modelled from the spec: write one component, padding absent ones with 0. -/
def vclock_set : VClock → Nat → Int → VClock
  | [], 0, x => [x]
  | [], i + 1, x => 0 :: vclock_set [] i x
  | _ :: v, 0, x => x :: v
  | a :: v, i + 1, x => a :: vclock_set v i x

/-- Modelled from the spec: a fresh vclock with every component 0. -/
def vclock_create : VClock := []

/-- Modelled from the spec: `inc(id)` increments a component and returns the
new value together with the updated clock. -/
def vclock_inc (v : VClock) (i : Nat) : Int × VClock :=
  let x := vclock_get v i + 1
  (x, vclock_set v i x)

/-- Modelled from the spec: `follow(id, lsn)` sets a component.  The C
implementation asserts that the new value exceeds the current one; that
assertion is tracked separately as a ghost flag by the callers. -/
def vclock_follow (v : VClock) (i : Nat) (lsn : Int) : VClock :=
  vclock_set v i lsn

/-- Modelled from the spec: `sum()` — the signature, total of all counters. -/
def vclock_sum : VClock → Int
  | [] => 0
  | a :: v => a + vclock_sum v

/-- Modelled from the spec: componentwise `≤` (domination). -/
def vclock_le : VClock → VClock → Bool
  | [], d => d.all (fun b => decide (0 ≤ b))
  | a :: v, [] => decide (a ≤ 0) && vclock_le v []
  | a :: v, b :: d => decide (a ≤ b) && vclock_le v d

/-- Result of `vclock_compare`: two clocks are comparable only if one
dominates the other componentwise, otherwise the order is undefined. -/
inductive VCmp
  | lt
  | eq
  | gt
  | undef
  deriving Repr, DecidableEq

/-- Modelled from the spec: `compare(a, b)` over the componentwise partial
order. -/
def vclock_compare (a b : VClock) : VCmp :=
  match vclock_le a b, vclock_le b a with
  | true, true => VCmp.eq
  | true, false => VCmp.lt
  | false, true => VCmp.gt
  | false, false => VCmp.undef

/-- Modelled from the spec: `merge(into, diff)` — componentwise add.  (The C
merge also clears the diff accumulator; callers below thread a fresh diff
after each merge accordingly.) -/
def vclock_merge : VClock → VClock → VClock
  | [], d => d
  | v, [] => v
  | a :: v, b :: d => (a + b) :: vclock_merge v d

/-- Modelled from the spec: componentwise minimum of two vclocks. -/
def vclock_min2 : VClock → VClock → VClock
  | [], d => d.map (fun b => min 0 b)
  | v, [] => v.map (fun a => min a 0)
  | a :: v, b :: d => min a b :: vclock_min2 v d

/-- Modelled from the spec (mclock.c is not under src/): the matrix clock
maps consumer id to its last acknowledged VClock; `mclock_min` is the
pointwise minimum over all consumers, or `none` when no consumer is
registered (this is `mclock_get(&mclock, -1, &out)` in the source). -/
def mclock_min : List (Nat × VClock) → Option VClock
  | [] => none
  | (_, v) :: rest => some (rest.foldl (fun acc p => vclock_min2 acc p.2) v)

/-- `IPROTO_NOP` row type id. -/
def IPROTO_NOP : Nat := 12

/-- `GROUP_DEFAULT`: replicated rows. -/
def GROUP_DEFAULT : Nat := 0

/-- `GROUP_LOCAL`: replica-local rows that must not be replayed verbatim. -/
def GROUP_LOCAL : Nat := 1

/-- `REPLICA_ID_NIL`: the unset replica id. -/
def REPLICA_ID_NIL : Nat := 0

/-- Size preallocated with `xlog_fallocate` (`WAL_FALLOCATE_LEN`, 1 MB). -/
def WAL_FALLOCATE_LEN : Int := 1024 * 1024

/-- An xrow header (`struct xrow_header`), restricted to the fields the WAL
writer and the relay inspect.  The wall-clock `tm` field is not modelled. -/
structure XrowHeader where
  replica_id : Nat
  lsn : Int
  tsn : Int
  is_commit : Bool
  group_id : Nat
  type : Nat
  bodycnt : Nat
  deriving Repr, DecidableEq

/-- A default row used only as the `List.getD` fallback in statements. -/
def xrow0 : XrowHeader :=
  { replica_id := 0, lsn := 0, tsn := 0, is_commit := false,
    group_id := GROUP_DEFAULT, type := 0, bodycnt := 1 }

instance : Inhabited XrowHeader := ⟨xrow0⟩

/-- A journal entry (`struct journal_entry`): the ordered rows of one
transaction, its approximate encoded length and its result slot.  `eid` is a
ghost identity standing for the entry's address, used to speak about
completion order. -/
structure JournalEntry where
  eid : Nat
  rows : List XrowHeader
  approx_len : Int
  res : Int
  deriving Repr, DecidableEq

/-- A default journal entry used only as the `List.getD` fallback. -/
def je0 : JournalEntry := { eid := 0, rows := [], approx_len := 0, res := -1 }

instance : Inhabited JournalEntry := ⟨je0⟩

/-- `wal_mode`: none / write / fsync. -/
inductive WalMode
  | none
  | write
  | fsync
  deriving Repr, DecidableEq

/-- A batch message travelling between TX and WAL (`struct wal_msg`). -/
structure WalMsgM where
  approx_len : Int
  commit : List JournalEntry
  rollback : List JournalEntry
  vclock : VClock
  deriving Repr, DecidableEq

/-- A message sitting in the tx→wal pipe input: either an open batch or some
other message kind (relay attach, gc, ...). -/
inductive PipeMsg
  | walMsg (m : WalMsgM)
  | other
  deriving Repr, DecidableEq

/-- The WAL writer state (`struct wal_writer`), with the on-disk segment
directory flattened to the list of starting vclocks ordered by signature,
and the current xlog file flattened to its open flag, creation vclock,
size and preallocated bytes. -/
structure WalState where
  wal_mode : WalMode
  wal_max_size : Int
  vclock : VClock
  checkpoint_vclock : VClock
  checkpoint_wal_size : Int
  checkpoint_threshold : Int
  checkpoint_triggered : Bool
  rollback : List JournalEntry
  in_rollback : Bool
  wal_dir : List VClock
  cur_open : Bool
  cur_vclock : VClock
  cur_offset : Int
  cur_allocated : Int
  gc_first_vclock : VClock
  gc_wal_vclock : Option VClock
  mclock : List (Nat × VClock)
  pipe_input : List PipeMsg
  deriving Repr, DecidableEq

/-- `second_vclock` (wal.c): the second starting vclock of the directory;
when a single file exists whose signature differs from the writer's, the
writer vclock itself stands for the still-uncreated next xlog. -/
def second_vclock (s : WalState) : Option VClock :=
  match s.wal_dir with
  | [] => none
  | [first] =>
      if vclock_sum first ≠ vclock_sum s.vclock then some s.vclock else none
  | _ :: second :: _ => some second

/-- Modelled from the spec (xlog.c is not under src/): the directory GC
primitive with `XDIR_GC_REMOVE_ONE` deletes the oldest segment provided its
starting signature precedes the given collection signature. -/
def xdir_collect_garbage_one (dir : List VClock) (sig : Int) : List VClock :=
  match dir with
  | [] => []
  | v :: rest => if vclock_sum v < sig then rest else dir

/-- Modelled from the spec (xlog.c is not under src/): the directory GC
primitive without flags keeps deleting oldest segments while their starting
signature precedes the given collection signature; the located (matched)
segment itself is always retained (§4.7 "delete all older ones"). -/
def xdir_collect_garbage_all (dir : List VClock) (sig : Int) : List VClock :=
  dir.dropWhile (fun v => decide (vclock_sum v < sig))

/-- Modelled from the spec (xlog.c is not under src/): whether the directory
holds at least one segment deletable at the given collection signature. -/
def xdir_has_garbage (dir : List VClock) (sig : Int) : Bool :=
  match dir with
  | [] => false
  | v :: _ => decide (vclock_sum v < sig)

/-- Modelled from the spec (vclock.h is not under src/): `vclockset_match`
locates the newest segment whose starting vclock does not exceed the key in
the directory's signature order. -/
def vclockset_match (dir : List VClock) (key : VClock) : Option VClock :=
  (dir.filter (fun v => decide (vclock_sum v ≤ vclock_sum key))).getLast?

/-- Result of `wal_assign_lsn`: the updated diff, the rows after LSN
assignment, and a ghost flag recording that every `vclock_follow` call obeyed
its assertion (the new value strictly exceeds the previous diff component). -/
structure AssignRes where
  diff : VClock
  rows : List XrowHeader
  followOk : Bool
  deriving Repr, DecidableEq

/-- Worker of `wal_assign_lsn` (wal.c): walks the entry rows in order
carrying the transaction id `tsn` (0 while no local row was seen yet). -/
def wal_assign_lsn_go (iid : Nat) (base : VClock) :
    VClock → Int → List XrowHeader → AssignRes
  | diff, _, [] => ⟨diff, [], true⟩
  | diff, tsn, row :: rest =>
    if row.replica_id = 0 then
      let inc := vclock_inc diff iid
      let lsn := inc.1 + vclock_get base iid
      let tsn' := if tsn = 0 then lsn else tsn
      let row' := { row with
          lsn := lsn, replica_id := iid, tsn := tsn',
          is_commit := rest.isEmpty }
      let r := wal_assign_lsn_go iid base inc.2 tsn' rest
      ⟨r.diff, row' :: r.rows, r.followOk⟩
    else
      let delta := row.lsn - vclock_get base row.replica_id
      let ok := decide (vclock_get diff row.replica_id < delta)
      let r := wal_assign_lsn_go iid base
          (vclock_follow diff row.replica_id delta) tsn rest
      ⟨r.diff, row :: r.rows, ok && r.followOk⟩

/-- `wal_assign_lsn` (wal.c): assign lsn and replica id to local rows of one
entry and track every row into the vclock diff. -/
def wal_assign_lsn (iid : Nat) (diff base : VClock) (rows : List XrowHeader) :
    AssignRes :=
  wal_assign_lsn_go iid base diff 0 rows

/-- Result of `wal_write_xlog_batch`: the last xlog return code, the entries
left unprocessed, the entries moved to the output list, the accumulated
diff, the unconsumed part of the xlog oracle and the follow ghost flag. -/
structure XlogBatchRes where
  rc : Int
  remaining : List JournalEntry
  output : List JournalEntry
  diff : VClock
  oracle : List Int
  followOk : Bool
  deriving Repr, DecidableEq

/-- `wal_write_xlog_batch` (wal.c): shift entries from the input queue into
the output queue, assigning LSNs and encoding each entry, until the xlog
flushes (positive return), an error occurs (negative return) or the input is
exhausted, in which case the log is flushed explicitly.  The results of
`wal_encode_write_entry` and `xlog_flush` — external xlog effects — are
consumed from the oracle list (absent entries default to 0). -/
def wal_write_xlog_batch (iid : Nat) (base : VClock) :
    List JournalEntry → VClock → List Int → XlogBatchRes
  | [], diff, orc => ⟨0, [], [], diff, orc, true⟩
  | e :: rest, diff, orc =>
    let a := wal_assign_lsn iid diff base e.rows
    let e' := { e with rows := a.rows, res := vclock_sum a.diff + vclock_sum base }
    let rc := orc.headD 0
    let orc' := orc.tail
    if rc = 0 ∧ rest ≠ [] then
      let r := wal_write_xlog_batch iid base rest a.diff orc'
      ⟨r.rc, r.remaining, e' :: r.output, r.diff, r.oracle, a.followOk && r.followOk⟩
    else if rc = 0 then
      ⟨orc'.headD 0, rest, [e'], a.diff, orc'.tail, a.followOk⟩
    else
      ⟨rc, rest, [e'], a.diff, orc', a.followOk⟩

/-- Result of the portion loop of `wal_write_to_disk`. -/
structure PortionsRes where
  s : WalState
  commit : List JournalEntry
  rollbackNew : List JournalEntry
  oracle : List Int
  flushedAny : Bool
  followOk : Bool
  deriving Repr, DecidableEq

/-- The `while (!stailq_empty(&input))` loop of `wal_write_to_disk` (wal.c):
each iteration writes one flush portion via `wal_write_xlog_batch` inside an
xrow-buffer transaction; on success the portion is committed, the byte count
added to `checkpoint_wal_size` and the diff merged into the writer vclock;
on failure the processed output and the unprocessed tail go to the rollback
list.  `fuel` bounds the recursion; the caller passes `input.length + 1`,
which always suffices since every portion consumes at least one entry. -/
def w2d_portions (iid : Nat) :
    Nat → WalState → List JournalEntry → List Int → PortionsRes
  | _, s, [], orc => ⟨s, [], [], orc, false, true⟩
  | 0, s, _ :: _, orc => ⟨s, [], [], orc, false, true⟩
  | fuel + 1, s, e :: rest, orc =>
    let b := wal_write_xlog_batch iid s.vclock (e :: rest) vclock_create orc
    if b.rc < 0 then
      ⟨s, [], b.output ++ b.remaining, b.oracle, false, b.followOk⟩
    else
      let s' := { s with
          checkpoint_wal_size := s.checkpoint_wal_size + b.rc,
          vclock := vclock_merge s.vclock b.diff }
      let r := w2d_portions iid fuel s' b.remaining b.oracle
      ⟨r.s, b.output ++ r.commit, r.rollbackNew, r.oracle, true,
       b.followOk && r.followOk⟩

/-- Result of `wal_opt_rotate`: the new state, the return code, and a ghost
flag recording that `WAL_EVENT_ROTATE` was raised. -/
structure RotateRes where
  s : WalState
  rc : Int
  rotated : Bool
  deriving Repr, DecidableEq

/-- `wal_opt_rotate` (wal.c): close the current xlog when it reached
`wal_max_size`; then, if no xlog is open, create a new one named by the
current writer vclock, register its starting vclock with the directory and
notify watchers with `EVENT_ROTATE`.  `createOk` is the oracle for
`xdir_create_xlog`. -/
def wal_opt_rotate (s : WalState) (createOk : Bool) : RotateRes :=
  let s :=
    if s.cur_open ∧ s.wal_max_size ≤ s.cur_offset then
      { s with cur_open := false }
    else s
  if s.cur_open then ⟨s, 0, false⟩
  else if createOk then
    let s1 := { s with
        cur_open := true, cur_vclock := s.vclock, cur_offset := 0,
        cur_allocated := 0, wal_dir := s.wal_dir ++ [s.vclock] }
    let s2 :=
      if s1.gc_wal_vclock = none then
        { s1 with gc_wal_vclock := second_vclock s1 }
      else s1
    ⟨s2, 0, true⟩
  else ⟨s, -1, false⟩

/-- Outcome of one `xlog_fallocate` call (an external xlog effect). -/
inductive FallocRes
  | ok
  | enospc
  | eio
  deriving Repr, DecidableEq

/-- Result of `wal_fallocate`: the new state, the return code, the ghost
list of byte amounts requested from `xlog_fallocate`, and the ghost GC
notification vclock posted to TX when segments were deleted. -/
structure FallocateRes where
  s : WalState
  rc : Int
  requests : List Int
  notified : Option VClock
  deriving Repr, DecidableEq

/-- The ENOSPC recovery block of `wal_fallocate` (wal.c): delete one oldest
deletable segment, recompute `gc_wal_vclock` as the directory's second
vclock, and raise `gc_first_vclock` to it when it was strictly below. -/
def wal_fallocate_retry_state (gcLsn : Int) (s : WalState) : WalState :=
  let s1 := { s with wal_dir := xdir_collect_garbage_one s.wal_dir gcLsn }
  let s2 := { s1 with gc_wal_vclock := second_vclock s1 }
  match s2.gc_wal_vclock with
  | some w =>
      if vclock_compare s2.gc_first_vclock w = VCmp.lt then
        { s2 with gc_first_vclock := w }
      else s2
  | none => s2

/-- The retry loop of `wal_fallocate` (wal.c).  `gcLsn` is the signature of
the checkpoint vclock — the max LSN collectable under ENOSPC; `len` is the
already-doubled length.  The `tx_notify_gc` message posted at exit carries
the directory's oldest vclock (or the writer vclock when empty). -/
def wal_fallocate_go (gcLsn len : Int) :
    Nat → WalState → List FallocRes → List Int → Bool → FallocateRes
  | 0, s, _, reqs, deleted =>
      ⟨s, -1, reqs, if deleted then some (s.wal_dir.head?.getD s.vclock) else none⟩
  | fuel + 1, s, orc, reqs, deleted =>
    if len ≤ s.cur_allocated then
      ⟨s, 0, reqs, if deleted then some (s.wal_dir.head?.getD s.vclock) else none⟩
    else
      let req := max len WAL_FALLOCATE_LEN
      match orc with
      | FallocRes.ok :: _ =>
          ⟨{ s with cur_allocated := s.cur_allocated + req }, 0, reqs ++ [req],
           if deleted then some (s.wal_dir.head?.getD s.vclock) else none⟩
      | FallocRes.eio :: _ =>
          ⟨s, -1, reqs ++ [req],
           if deleted then some (s.wal_dir.head?.getD s.vclock) else none⟩
      | [] =>
          ⟨{ s with cur_allocated := s.cur_allocated + req }, 0, reqs ++ [req],
           if deleted then some (s.wal_dir.head?.getD s.vclock) else none⟩
      | FallocRes.enospc :: rest =>
          if xdir_has_garbage s.wal_dir gcLsn then
            wal_fallocate_go gcLsn len fuel (wal_fallocate_retry_state gcLsn s)
              rest (reqs ++ [req]) true
          else
            ⟨s, -1, reqs ++ [req],
             if deleted then some (s.wal_dir.head?.getD s.vclock) else none⟩

/-- `wal_fallocate` (wal.c): make sure `len` more bytes fit on disk.  The
requested length is doubled up front; on ENOSPC old segments not needed to
recover from the last checkpoint are deleted one at a time and the call
retried.  The fuel `|wal_dir| + 1` always suffices: every retry deletes one
segment. -/
def wal_fallocate (s : WalState) (len : Int) (orc : List FallocRes) :
    FallocateRes :=
  wal_fallocate_go (vclock_sum s.checkpoint_vclock) (2 * len)
    (s.wal_dir.length + 1) s orc [] false

/-- External effects consumed by one `wal_write_to_disk` run:
`xdir_create_xlog` success, the `xlog_fallocate` outcomes, and the
`wal_encode_write_entry` / `xlog_flush` return values. -/
structure W2DOracle where
  rotateOk : Bool
  falloc : List FallocRes
  xlog : List Int
  deriving Repr, DecidableEq

/-- Result of a `wal_write_to_disk` run: the writer state, the processed
batch message, and ghosts: whether some portion was flushed and merged,
whether every `vclock_follow` assertion held, the GC notification from
ENOSPC recovery, and whether the checkpoint-threshold message was posted. -/
structure W2DRes where
  s : WalState
  msg : WalMsgM
  flushedAny : Bool
  followOk : Bool
  gcNotified : Option VClock
  ckptNotified : Bool
  deriving Repr, DecidableEq

/-- `wal_write_to_disk` (wal.c): process one batch on the WAL thread.  In
rollback mode the whole commit list short-circuits into the rollback list.
Otherwise rotate, preallocate, then write flush portions; afterwards post
the checkpoint-threshold notification if due, stamp the batch with the
writer vclock, and if anything must be rolled back, mark those entries with
`res = -1` and begin the cascading-rollback protocol (`in_rollback`). -/
def wal_write_to_disk (iid : Nat) (s : WalState) (m : WalMsgM)
    (orc : W2DOracle) : W2DRes :=
  if s.in_rollback then
    let m' := { m with
      rollback := m.rollback ++ m.commit
      commit := []
      vclock := s.vclock }
    ⟨s, m', false, true, none, false⟩
  else
    let r1 := wal_opt_rotate s orc.rotateOk
    if r1.rc < 0 then
      let m' := { m with
        rollback := m.rollback ++ m.commit
        commit := []
        vclock := r1.s.vclock }
      ⟨{ r1.s with in_rollback := true }, m', false, true, none, false⟩
    else
      let r2 := wal_fallocate r1.s m.approx_len orc.falloc
      if r2.rc < 0 then
        let m' := { m with
          rollback := m.rollback ++ m.commit
          commit := []
          vclock := r2.s.vclock }
        ⟨{ r2.s with in_rollback := true }, m', false, true, r2.notified, false⟩
      else
        let p := w2d_portions iid (m.commit.length + 1) r2.s m.commit orc.xlog
        let trig := !p.s.checkpoint_triggered &&
          decide (p.s.checkpoint_threshold < p.s.checkpoint_wal_size)
        let s3 :=
          if trig then { p.s with checkpoint_triggered := true } else p.s
        let base : WalMsgM := { m with
          commit := p.commit
          rollback := m.rollback ++ p.rollbackNew
          vclock := s3.vclock }
        if base.rollback = [] then
          ⟨s3, base, p.flushedAny, p.followOk, r2.notified, trig⟩
        else
          let m' := { base with
            rollback := base.rollback.map (fun e => { e with res := -1 }) }
          ⟨{ s3 with in_rollback := true }, m', p.flushedAny, p.followOk,
           r2.notified, trig⟩

/-- The TX thread state visible to the WAL completion handlers. -/
structure TxSt where
  replicaset_vclock : VClock
  writer_rollback : List JournalEntry
  deriving Repr, DecidableEq

/-- `tx_schedule_commit` (wal.c): on TX, move the batch's rollback list to
the writer's rollback queue (closing the write valve), update the TX-side
replicaset vclock from the batch, and complete the committed entries in FIFO
order.  The returned list is the completion order. -/
def tx_schedule_commit (tx : TxSt) (batch : WalMsgM) :
    TxSt × List JournalEntry :=
  let tx1 :=
    if batch.rollback ≠ [] then
      { tx with writer_rollback := tx.writer_rollback ++ batch.rollback }
    else tx
  let tx2 := { tx1 with replicaset_vclock := batch.vclock }
  (tx2, batch.commit)

/-- `tx_schedule_rollback` (wal.c): reverse the accumulated rollback queue
and complete every entry; the returned list is the completion order. -/
def tx_schedule_rollback (tx : TxSt) : TxSt × List JournalEntry :=
  (⟨tx.replicaset_vclock, []⟩, tx.writer_rollback.reverse)

/-- Result of the TX-side `wal_write`: the new writer state, the return
code, and the entries completed synchronously (as pairs of ghost id and
result). -/
structure WriteRes where
  s : WalState
  rc : Int
  completions : List (Nat × Int)
  deriving Repr, DecidableEq

/-- `wal_write` (wal.c): the journal entry point on TX.  A non-empty
rollback queue (the valve) fails the entry immediately with `res = -1`.
Otherwise the entry joins the open batch at the head of the wal pipe input,
or a fresh batch is created and pushed. -/
def wal_write (s : WalState) (entry : JournalEntry) : WriteRes :=
  if s.rollback ≠ [] then ⟨s, -1, [(entry.eid, -1)]⟩
  else
    match s.pipe_input with
    | PipeMsg.walMsg b :: rest =>
        let b' := { b with
          commit := b.commit ++ [entry]
          approx_len := b.approx_len + entry.approx_len }
        ⟨{ s with pipe_input := PipeMsg.walMsg b' :: rest }, 0, []⟩
    | _ =>
        let b : WalMsgM :=
          { approx_len := entry.approx_len, commit := [entry],
            rollback := [], vclock := vclock_create }
        ⟨{ s with pipe_input := s.pipe_input ++ [PipeMsg.walMsg b] }, 0, []⟩

/-- Error kinds raised by the journal API under rollback. -/
inductive WalErr
  | walIo
  | checkpointRollback
  deriving Repr, DecidableEq

/-- `wal_sync` (wal.c): in mode none return the vclock at once; during a
cascading rollback (TX-side queue non-empty, or `in_rollback` observed by
`wal_sync_f` on the WAL thread) fail with `ER_WAL_IO`; otherwise return the
writer vclock.  The writer state is never modified. -/
def wal_sync (s : WalState) : Except WalErr VClock :=
  if s.wal_mode = WalMode.none then Except.ok s.vclock
  else if s.rollback ≠ [] then Except.error WalErr.walIo
  else if s.in_rollback then Except.error WalErr.walIo
  else Except.ok s.vclock

deriving instance DecidableEq for Except

/-- Result of `wal_begin_checkpoint`. -/
structure CkptRes where
  s : WalState
  result : Except WalErr (VClock × Int)
  deriving Repr, DecidableEq

/-- `wal_begin_checkpoint` (wal.c): fails with `ER_CHECKPOINT_ROLLBACK`
while a rollback is in progress (checked on TX via the rollback queue and on
the WAL thread via `in_rollback`); otherwise closes the current xlog if it
contains rows and reports the writer vclock and the WAL size since the last
checkpoint. -/
def wal_begin_checkpoint (s : WalState) : CkptRes :=
  if s.wal_mode = WalMode.none then ⟨s, Except.ok (s.vclock, 0)⟩
  else if s.rollback ≠ [] then ⟨s, Except.error WalErr.checkpointRollback⟩
  else if s.in_rollback then ⟨s, Except.error WalErr.checkpointRollback⟩
  else
    let s' :=
      if s.cur_open ∧ vclock_sum s.cur_vclock ≠ vclock_sum s.vclock then
        let t := { s with cur_open := false }
        if t.gc_wal_vclock = none then
          { t with gc_wal_vclock := second_vclock t }
        else t
      else s
    ⟨s', Except.ok (s'.vclock, s'.checkpoint_wal_size)⟩

/-- Result of `wal_write_in_wal_mode_none`. -/
structure NoneWriteRes where
  s : WalState
  replicaset : VClock
  entry : JournalEntry
  completions : List (Nat × Int)
  deriving Repr, DecidableEq

/-- `wal_write_in_wal_mode_none` (wal.c): with `wal_mode = none` the write
completes synchronously on TX: assign LSNs against the writer vclock, merge
the diff, copy the writer vclock to the TX replicaset vclock, set the
entry's result to the new signature and complete it.  No other writer field
is touched and no disk or oracle effect occurs. -/
def wal_write_in_wal_mode_none (iid : Nat) (s : WalState) (_rv : VClock)
    (entry : JournalEntry) : NoneWriteRes :=
  let a := wal_assign_lsn iid vclock_create s.vclock entry.rows
  let v' := vclock_merge s.vclock a.diff
  let s' := { s with vclock := v' }
  let entry' := { entry with rows := a.rows, res := vclock_sum v' }
  ⟨s', v', entry', [(entry.eid, vclock_sum v')]⟩

/-- Result of `wal_collect_garbage`: the state and the `tx_notify_gc`
vclock posted to TX (the new oldest retained vclock), when GC acted. -/
structure GcRes where
  s : WalState
  notified : Option VClock
  deriving Repr, DecidableEq

/-- `wal_collect_garbage` (wal.c): pick the collection point as
`gc_first_vclock`, downgraded to the matrix-clock minimum when the former is
greater or incomparable; when no xlog is open and the point's signature has
reached the writer's, collect at the point itself, otherwise at the newest
segment whose starting vclock does not exceed it; then refresh
`gc_wal_vclock` to the directory's second vclock and notify TX with the new
oldest retained vclock. -/
def wal_collect_garbage (s : WalState) : GcRes :=
  let collect :=
    match mclock_min s.mclock with
    | some rmin =>
        match vclock_compare s.gc_first_vclock rmin with
        | VCmp.gt => rmin
        | VCmp.undef => rmin
        | _ => s.gc_first_vclock
    | none => s.gc_first_vclock
  let cv : Option VClock :=
    if ¬ s.cur_open ∧ vclock_sum s.vclock ≤ vclock_sum collect then
      some collect
    else
      vclockset_match s.wal_dir collect
  match cv with
  | some c =>
      let s1 := { s with
          wal_dir := xdir_collect_garbage_all s.wal_dir (vclock_sum c) }
      let s2 := { s1 with gc_wal_vclock := second_vclock s1 }
      ⟨s2, some (s2.wal_dir.head?.getD s2.vclock)⟩
  | none => ⟨s, none⟩

/-- Follows the spec sentence of claim C6 (not the source): the collection
point is `max(gc_first_vclock, mclock.min())`, an incomparable comparison
meaning "do not advance" (keep `gc_first_vclock`); the rest as in
`wal_collect_garbage`.  Used only to exhibit the divergence. -/
def wal_collect_garbage_claimed (s : WalState) : GcRes :=
  let collect :=
    match mclock_min s.mclock with
    | some rmin =>
        match vclock_compare s.gc_first_vclock rmin with
        | VCmp.lt => rmin
        | _ => s.gc_first_vclock
    | none => s.gc_first_vclock
  let cv : Option VClock :=
    if ¬ s.cur_open ∧ vclock_sum s.vclock ≤ vclock_sum collect then
      some collect
    else
      vclockset_match s.wal_dir collect
  match cv with
  | some c =>
      let s1 := { s with
          wal_dir := xdir_collect_garbage_all s.wal_dir (vclock_sum c) }
      let s2 := { s1 with gc_wal_vclock := second_vclock s1 }
      ⟨s2, some (s2.wal_dir.head?.getD s2.vclock)⟩
  | none => ⟨s, none⟩

/-- The relay fields consulted by `relay_send_row` (relay.cc): the bound
replica's id (`none` during final join) and the TX vclock snapshot taken at
subscribe time. -/
structure Relay where
  replica_id : Option Nat
  local_vclock_at_subscribe : VClock
  deriving Repr, DecidableEq

/-- `relay_send_row` (relay.cc): the per-row relay edge.  Replica-local rows
with a nil replica id are dropped; other replica-local rows are rewritten to
an `IPROTO_NOP` of the default group with an empty body.  In a subscribe
session a row originating from the bound replica itself is dropped unless
its LSN does not exceed the local vclock at subscribe time (power-loss
recovery); a final-join session sends every row.  `none` means the row is
not sent. -/
def relay_send_row (relay : Relay) (packet : XrowHeader) :
    Option XrowHeader :=
  if packet.group_id = GROUP_LOCAL ∧ packet.replica_id = REPLICA_ID_NIL then
    none
  else
    let packet :=
      if packet.group_id = GROUP_LOCAL then
        { packet with
          type := IPROTO_NOP
          group_id := GROUP_DEFAULT
          bodycnt := 0 }
      else packet
    match relay.replica_id with
    | none => some packet
    | some id =>
        if packet.replica_id ≠ id ∨
            packet.lsn ≤ vclock_get relay.local_vclock_at_subscribe
              packet.replica_id then
          some packet
        else none

/-- The state of one WAL watcher (`struct wal_watcher`), with ghost
counters: `pushCount` / `completeCount` count notification messages pushed
to and returned from the watcher pipe, `pushedEvents` and `raisedEvents`
accumulate (bitwise-or) all events ever pushed and ever raised.
`in_flight` is `msg.cmsg.route != NULL`; `attached` is membership in the
writer's watcher list. -/
structure WatcherState where
  attached : Bool
  in_flight : Bool
  msg_events : Nat
  pending_events : Nat
  pushCount : Nat
  completeCount : Nat
  pushedEvents : Nat
  raisedEvents : Nat
  deriving Repr, DecidableEq

/-- A watcher right after `wal_watcher_attach`, before any notification. -/
def watcher_init : WatcherState :=
  { attached := true, in_flight := false, msg_events := 0,
    pending_events := 0, pushCount := 0, completeCount := 0,
    pushedEvents := 0, raisedEvents := 0 }

/-- `wal_watcher_notify` (wal.c): while the previous notification message is
still en route, OR the new events into `pending_events`; otherwise load the
message with the events and push it. -/
def wal_watcher_notify (w : WatcherState) (events : Nat) : WatcherState :=
  if w.in_flight then
    { w with pending_events := w.pending_events ||| events }
  else
    { w with
      in_flight := true
      msg_events := events
      pushCount := w.pushCount + 1
      pushedEvents := w.pushedEvents ||| events }

/-- `wal_watcher_notify_complete` (wal.c): the message returned to WAL; if
the watcher already detached do nothing more, otherwise resend the pending
events (if any) as a single notification and clear them. -/
def wal_watcher_notify_complete (w : WatcherState) : WatcherState :=
  let w1 := { w with
    in_flight := false
    completeCount := w.completeCount + 1 }
  if ¬ w1.attached then w1
  else if w1.pending_events ≠ 0 then
    { wal_watcher_notify w1 w1.pending_events with pending_events := 0 }
  else w1

/-- Events observable at one watcher: the writer raises events
(`wal_notify_watchers`), the notification message returns
(`wal_watcher_notify_complete`), or the watcher detaches
(`wal_watcher_detach`). -/
inductive WOp
  | raise (events : Nat)
  | complete
  | detach
  deriving Repr, DecidableEq

/-- One step of the watcher protocol. -/
def wstep (w : WatcherState) : WOp → WatcherState
  | WOp.raise e => wal_watcher_notify { w with raisedEvents := w.raisedEvents ||| e } e
  | WOp.complete => wal_watcher_notify_complete w
  | WOp.detach => { w with attached := false }

/-- Guard of a step: events are raised only at attached watchers
(`wal_watcher_notify` asserts list membership) and a completion arrives only
for a message actually en route. -/
def wvalid (w : WatcherState) : WOp → Bool
  | WOp.raise _ => w.attached
  | WOp.complete => w.in_flight
  | WOp.detach => true

/-- A whole trace of watcher events is valid when every step's guard holds. -/
def wtrace_valid : WatcherState → List WOp → Bool
  | _, [] => true
  | w, op :: ops => wvalid w op && wtrace_valid (wstep w op) ops

/-- Run a trace of watcher events. -/
def wrun : WatcherState → List WOp → WatcherState
  | w, [] => w
  | w, op :: ops => wrun (wstep w op) ops

/-- A local row before LSN assignment (`replica_id = 0`). -/
def row_local : XrowHeader :=
  { replica_id := 0, lsn := 0, tsn := 0, is_commit := false,
    group_id := GROUP_DEFAULT, type := 2, bodycnt := 1 }

/-- Scenario S2 pre-state: writer vclock `{1:5}`, an open current xlog with
enough preallocated space, no rollback in progress. -/
def s_s2 : WalState :=
  { wal_mode := WalMode.write, wal_max_size := 1073741824,
    vclock := [0, 5], checkpoint_vclock := [],
    checkpoint_wal_size := 0, checkpoint_threshold := 1073741824,
    checkpoint_triggered := false, rollback := [], in_rollback := false,
    wal_dir := [[0, 5]], cur_open := true, cur_vclock := [0, 5],
    cur_offset := 0, cur_allocated := 1048576,
    gc_first_vclock := [], gc_wal_vclock := none, mclock := [],
    pipe_input := [] }

/-- Scenario S2 entry A: one local row. -/
def entryA : JournalEntry :=
  { eid := 1, rows := [row_local], approx_len := 8, res := -1 }

/-- Scenario S2 entry B: two local rows. -/
def entryB : JournalEntry :=
  { eid := 2, rows := [row_local, row_local], approx_len := 8, res := -1 }

/-- A third one-row entry, used by the rollback scenarios. -/
def entryC : JournalEntry :=
  { eid := 3, rows := [row_local], approx_len := 8, res := -1 }

/-- Scenario S2 batch: entries A then B in FIFO order. -/
def m_s2 : WalMsgM :=
  { approx_len := 16, commit := [entryA, entryB], rollback := [],
    vclock := [] }

/-- Scenario S2 oracle: both entries encode without an intermediate flush,
the final explicit flush writes 7 bytes. -/
def orc_s2 : W2DOracle := { rotateOk := true, falloc := [], xlog := [0, 0, 7] }

/-- Batch for the partial-flush rollback run: A then C. -/
def m_c2x : WalMsgM :=
  { approx_len := 16, commit := [entryA, entryC], rollback := [],
    vclock := [] }

/-- Oracle for the partial-flush rollback run: entry A's encode flushes the
xlog (5 bytes written), entry C's encode fails. -/
def orc_c2x : W2DOracle :=
  { rotateOk := true, falloc := [], xlog := [5, -1] }

/-- Batch for the first-portion rollback run: A, B, C. -/
def m_c2w : WalMsgM :=
  { approx_len := 24, commit := [entryA, entryB, entryC], rollback := [],
    vclock := [] }

/-- Oracle for the first-portion rollback run: A encodes (buffered), B's
encode fails before any flush. -/
def orc_c2w : W2DOracle :=
  { rotateOk := true, falloc := [], xlog := [0, -1] }

/-- A state with the rollback protocol signalled on the WAL thread
(`in_rollback` route set) but the TX-side rollback queue still empty — the
window between `wal_writer_begin_rollback` and `tx_schedule_commit`. -/
def s_c4 : WalState := { s_s2 with in_rollback := true }

/-- A state with a non-empty TX-side rollback queue. -/
def s_c4q : WalState := { s_s2 with rollback := [entryC] }

/-- A fresh entry submitted during rollback. -/
def e_c4 : JournalEntry :=
  { eid := 9, rows := [row_local], approx_len := 4, res := 0 }

/-- Scenario S4 pre-state: directory `{V0, V1, V2, V3}` with signatures
1, 2, 3, 4; `checkpoint_vclock = V2`; nothing preallocated yet. -/
def s_s4 : WalState :=
  { wal_mode := WalMode.write, wal_max_size := 1073741824,
    vclock := [0, 4], checkpoint_vclock := [0, 3],
    checkpoint_wal_size := 0, checkpoint_threshold := 1073741824,
    checkpoint_triggered := false, rollback := [], in_rollback := false,
    wal_dir := [[0, 1], [0, 2], [0, 3], [0, 4]], cur_open := true,
    cur_vclock := [0, 4], cur_offset := 0, cur_allocated := 0,
    gc_first_vclock := [0, 0], gc_wal_vclock := some [0, 2], mclock := [],
    pipe_input := [] }

/-- Scenario S4 fallocate oracle: one ENOSPC, then success. -/
def orc_s4 : List FallocRes := [FallocRes.enospc, FallocRes.ok]

/-- S4 state with `gc_first_vclock` living on another instance, incomparable
with every directory vclock. -/
def s_c5 : WalState := { s_s4 with gc_first_vclock := [0, 0, 1] }

/-- GC state for claim C6: consumers lag (`mclock` minimum `{1:3}`) behind
the TX pin `gc_first_vclock = {1:5}`; segments start at signatures 1, 3, 5. -/
def s_c6 : WalState :=
  { wal_mode := WalMode.write, wal_max_size := 1073741824,
    vclock := [0, 5], checkpoint_vclock := [0, 5],
    checkpoint_wal_size := 0, checkpoint_threshold := 1073741824,
    checkpoint_triggered := false, rollback := [], in_rollback := false,
    wal_dir := [[0, 1], [0, 3], [0, 5]], cur_open := true,
    cur_vclock := [0, 5], cur_offset := 0, cur_allocated := 0,
    gc_first_vclock := [0, 5], gc_wal_vclock := some [0, 3],
    mclock := [(2, [0, 3])], pipe_input := [] }

/-- A relay subscribed by replica 7 whose vclock at subscribe time holds
`{7:41}`. -/
def relay7 : Relay :=
  { replica_id := some 7,
    local_vclock_at_subscribe := [0, 0, 0, 0, 0, 0, 0, 41] }

/-- A relay subscribed by replica 9 with the same subscribe snapshot. -/
def relay9 : Relay :=
  { replica_id := some 9,
    local_vclock_at_subscribe := [0, 0, 0, 0, 0, 0, 0, 41] }

/-- A relay with no bound replica: a final-join session. -/
def relayJoin : Relay := { replica_id := none, local_vclock_at_subscribe := [] }

/-- Scenario S6 row: `group_id = local`, `replica_id = 7`, `lsn = 42`. -/
def row_s6 : XrowHeader :=
  { replica_id := 7, lsn := 42, tsn := 42, is_commit := true,
    group_id := GROUP_LOCAL, type := 2, bodycnt := 1 }

/-- The collection point computed by `wal_collect_garbage` from
`gc_first_vclock` and the matrix-clock minimum. -/
def gc_collect_point (s : WalState) : VClock :=
  match mclock_min s.mclock with
  | some rmin =>
      match vclock_compare s.gc_first_vclock rmin with
      | VCmp.gt => rmin
      | VCmp.undef => rmin
      | _ => s.gc_first_vclock
  | none => s.gc_first_vclock

/-- The watcher-protocol invariant: the number of in-flight notification
messages (`pushCount − completeCount`) is exactly 0 or 1 as recorded by
`in_flight`, and no event edge is lost: the events of all pushed
notifications, OR-ed with the pending ones, are exactly all events ever
raised. -/
def winv (w : WatcherState) : Prop :=
  w.pushCount = w.completeCount + (if w.in_flight then 1 else 0) ∧
  w.pushedEvents ||| w.pending_events = w.raisedEvents

theorem vclock_get_nil (i : Nat) : vclock_get [] i = 0 := by
  cases i <;> rfl

theorem vclock_get_set (v : VClock) (i j : Nat) (x : Int) :
    vclock_get (vclock_set v i x) j = if j = i then x else vclock_get v j := by
  induction v generalizing i j with
  | nil =>
    induction i generalizing j with
    | zero => cases j <;> simp [vclock_set, vclock_get]
    | succ n ih =>
      cases j with
      | zero => simp [vclock_set, vclock_get]
      | succ m => simpa [vclock_set, vclock_get] using ih m
  | cons a v ih =>
    cases i with
    | zero => cases j <;> simp [vclock_set, vclock_get]
    | succ n =>
      cases j with
      | zero => simp [vclock_set, vclock_get]
      | succ m => simpa [vclock_set, vclock_get] using ih n m

theorem vclock_get_merge (a b : VClock) (i : Nat) :
    vclock_get (vclock_merge a b) i = vclock_get a i + vclock_get b i := by
  induction a generalizing b i with
  | nil => simp [vclock_merge, vclock_get_nil]
  | cons x v ih =>
    cases b with
    | nil => simp [vclock_merge, vclock_get_nil]
    | cons y d =>
      cases i with
      | zero => simp [vclock_merge, vclock_get]
      | succ m => simpa [vclock_merge, vclock_get] using ih d m

/-- Componentwise non-negativity of a vclock (diff accumulators). -/
def vclock_nonneg (v : VClock) : Prop := ∀ i, 0 ≤ vclock_get v i

theorem vclock_nonneg_create : vclock_nonneg vclock_create := by
  intro i
  simp [vclock_create, vclock_get_nil]

theorem vclock_nonneg_set (v : VClock) (i : Nat) (x : Int)
    (h : vclock_nonneg v) (hx : 0 ≤ x) : vclock_nonneg (vclock_set v i x) := by
  intro j
  rw [vclock_get_set]
  split
  · exact hx
  · exact h j

theorem vclock_le_sum : ∀ a b : VClock, vclock_le a b = true →
    vclock_sum a ≤ vclock_sum b := by
  intro a
  induction a with
  | nil =>
    intro b
    induction b with
    | nil => intro; simp [vclock_sum]
    | cons y d ih =>
      intro h
      simp only [vclock_le, List.all_cons, Bool.and_eq_true,
        decide_eq_true_eq] at h
      have := ih (by simp only [vclock_le]; exact h.2)
      simp only [vclock_sum] at *
      omega
  | cons x v ihv =>
    intro b
    cases b with
    | nil =>
      intro h
      simp only [vclock_le, Bool.and_eq_true, decide_eq_true_eq] at h
      have := ihv [] h.2
      simp only [vclock_sum] at *
      omega
    | cons y d =>
      intro h
      simp only [vclock_le, Bool.and_eq_true, decide_eq_true_eq] at h
      have := ihv d h.2
      simp only [vclock_sum] at *
      omega

theorem mem_dropWhile_of_mem {α : Type} (p : α → Bool) :
    ∀ (l : List α) (a : α), a ∈ l → p a = false → a ∈ l.dropWhile p := by
  intro l
  induction l with
  | nil => intro a h; cases h
  | cons x t ih =>
    intro a ha hpa
    by_cases hx : p x = true
    · rw [List.dropWhile_cons_of_pos hx]
      rcases List.mem_cons.mp ha with rfl | hmem
      · rw [hpa] at hx; cases hx
      · exact ih a hmem hpa
    · rw [List.dropWhile_cons_of_neg hx]
      exact ha

theorem mem_of_getLast? {α : Type} :
    ∀ (l : List α) (a : α), l.getLast? = some a → a ∈ l := by
  intro l
  induction l with
  | nil => intro a h; cases h
  | cons x t ih =>
    intro a h
    cases t with
    | nil =>
      simp only [List.getLast?_singleton, Option.some.injEq] at h
      simp [h]
    | cons y u =>
      rw [List.getLast?_cons_cons] at h
      exact List.mem_cons_of_mem x (ih a h)

theorem assign_go_local (iid : Nat) (base : VClock) :
    ∀ (rows : List XrowHeader) (diff : VClock) (t : Int),
      (∀ r ∈ rows, r.replica_id = 0) → t ≠ 0 →
      (wal_assign_lsn_go iid base diff t rows).rows.length = rows.length ∧
      ∀ j, j < rows.length →
        ((wal_assign_lsn_go iid base diff t rows).rows.getD j xrow0).replica_id
            = iid ∧
        ((wal_assign_lsn_go iid base diff t rows).rows.getD j xrow0).lsn
            = vclock_get base iid + vclock_get diff iid + (j + 1) ∧
        ((wal_assign_lsn_go iid base diff t rows).rows.getD j xrow0).tsn = t ∧
        (((wal_assign_lsn_go iid base diff t rows).rows.getD j xrow0).is_commit
            = true ↔ j = rows.length - 1) := by
  intro rows
  induction rows with
  | nil =>
    intro diff t _ _
    exact ⟨rfl, fun j hj => absurd hj (Nat.not_lt_zero j)⟩
  | cons r rest ih =>
    intro diff t hloc ht
    have hr : r.replica_id = 0 := hloc r (List.mem_cons_self r rest)
    have hrest : ∀ x ∈ rest, x.replica_id = 0 :=
      fun x hx => hloc x (List.mem_cons_of_mem r hx)
    simp only [wal_assign_lsn_go, hr, if_pos, if_neg ht, vclock_inc]
    have hget : vclock_get (vclock_set diff iid (vclock_get diff iid + 1)) iid
        = vclock_get diff iid + 1 := by
      rw [vclock_get_set]; simp
    have hrec := ih (vclock_set diff iid (vclock_get diff iid + 1)) t hrest ht
    constructor
    · simpa using hrec.1
    · intro j hj
      cases j with
      | zero =>
        simp only [List.getD_cons_zero]
        refine ⟨by first | trivial | rfl,
          by first | trivial | (push_cast; ring),
          by first | trivial | (push_cast; ring), ?_⟩
        cases rest <;> simp
      | succ m =>
        have hm : m < rest.length := by
          simpa [Nat.succ_lt_succ_iff] using hj
        have h2 := hrec.2 m hm
        rw [hget] at h2
        simp only [List.getD_cons_succ]
        refine ⟨h2.1, ?_, h2.2.2.1, ?_⟩
        · rw [h2.2.1]; push_cast; ring
        · rw [h2.2.2.2]
          simp only [List.length_cons]
          omega

theorem assign_all_local (iid : Nat) (base diff : VClock)
    (rows : List XrowHeader) (hloc : ∀ r ∈ rows, r.replica_id = 0)
    (hnn : 0 ≤ vclock_get base iid + vclock_get diff iid) :
    (wal_assign_lsn iid diff base rows).rows.length = rows.length ∧
    ∀ j, j < rows.length →
      ((wal_assign_lsn iid diff base rows).rows.getD j xrow0).replica_id
          = iid ∧
      ((wal_assign_lsn iid diff base rows).rows.getD j xrow0).lsn
          = vclock_get base iid + vclock_get diff iid + (j + 1) ∧
      ((wal_assign_lsn iid diff base rows).rows.getD j xrow0).tsn
          = vclock_get base iid + vclock_get diff iid + 1 ∧
      (((wal_assign_lsn iid diff base rows).rows.getD j xrow0).is_commit
          = true ↔ j = rows.length - 1) := by
  cases rows with
  | nil =>
    exact ⟨rfl, fun j hj => absurd hj (Nat.not_lt_zero j)⟩
  | cons r rest =>
    have hr : r.replica_id = 0 := hloc r (List.mem_cons_self r rest)
    have hrest : ∀ x ∈ rest, x.replica_id = 0 :=
      fun x hx => hloc x (List.mem_cons_of_mem r hx)
    have hlsn0 : vclock_get diff iid + 1 + vclock_get base iid ≠ 0 := by
      omega
    simp only [wal_assign_lsn, wal_assign_lsn_go, hr, if_pos, if_true,
      vclock_inc, if_pos rfl]
    have hget : vclock_get (vclock_set diff iid (vclock_get diff iid + 1)) iid
        = vclock_get diff iid + 1 := by
      rw [vclock_get_set]; simp
    have hrec := assign_go_local iid base rest
      (vclock_set diff iid (vclock_get diff iid + 1))
      (vclock_get diff iid + 1 + vclock_get base iid) hrest hlsn0
    constructor
    · simpa using hrec.1
    · intro j hj
      cases j with
      | zero =>
        simp only [List.getD_cons_zero]
        refine ⟨by first | trivial | rfl,
          by first | trivial | (push_cast; ring),
          by first | trivial | (push_cast; ring), ?_⟩
        cases rest <;> simp
      | succ m =>
        have hm : m < rest.length := by
          simpa [Nat.succ_lt_succ_iff] using hj
        have h2 := hrec.2 m hm
        rw [hget] at h2
        simp only [List.getD_cons_succ]
        refine ⟨h2.1, ?_, ?_, ?_⟩
        · rw [h2.2.1]; push_cast; ring
        · rw [h2.2.2.1]; push_cast; ring
        · rw [h2.2.2.2]
          simp only [List.length_cons]
          omega

theorem assign_go_nonneg (iid : Nat) (base : VClock) :
    ∀ (rows : List XrowHeader) (diff : VClock) (t : Int),
      vclock_nonneg diff →
      (wal_assign_lsn_go iid base diff t rows).followOk = true →
      vclock_nonneg (wal_assign_lsn_go iid base diff t rows).diff := by
  intro rows
  induction rows with
  | nil => intro diff t h _; simpa [wal_assign_lsn_go] using h
  | cons r rest ih =>
    intro diff t h hok
    by_cases hr : r.replica_id = 0
    · simp only [wal_assign_lsn_go, hr, if_pos, if_true, vclock_inc] at hok ⊢
      refine ih _ _ ?_ hok
      exact vclock_nonneg_set _ _ _ h (by have := h iid; omega)
    · simp only [wal_assign_lsn_go, hr, if_false, ite_false, vclock_follow,
        Bool.and_eq_true, decide_eq_true_eq] at hok ⊢
      refine ih _ _ ?_ hok.2
      exact vclock_nonneg_set _ _ _ h
        (le_trans (h r.replica_id) (le_of_lt hok.1))

theorem batch_followOk_nonneg (iid : Nat) (base : VClock) :
    ∀ (input : List JournalEntry) (diff : VClock) (orc : List Int),
      vclock_nonneg diff →
      (wal_write_xlog_batch iid base input diff orc).followOk = true →
      vclock_nonneg (wal_write_xlog_batch iid base input diff orc).diff := by
  intro input
  induction input with
  | nil => intro diff orc h _; simpa [wal_write_xlog_batch] using h
  | cons e rest ih =>
    intro diff orc h hok
    have ha : vclock_nonneg (wal_assign_lsn iid diff base e.rows).diff →
        True := fun _ => trivial
    by_cases hc : orc.headD 0 = 0 ∧ rest ≠ []
    · simp only [wal_write_xlog_batch, if_pos hc, Bool.and_eq_true] at hok ⊢
      refine ih _ _ ?_ hok.2
      exact assign_go_nonneg iid base e.rows diff 0 h hok.1
    · by_cases hz : orc.headD 0 = 0
      · simp only [wal_write_xlog_batch, if_neg hc, if_pos hz] at hok ⊢
        exact assign_go_nonneg iid base e.rows diff 0 h hok
      · simp only [wal_write_xlog_batch, if_neg hc, if_neg hz] at hok ⊢
        exact assign_go_nonneg iid base e.rows diff 0 h hok

theorem batch_eids (iid : Nat) (base : VClock) :
    ∀ (input : List JournalEntry) (diff : VClock) (orc : List Int),
      (wal_write_xlog_batch iid base input diff orc).output.map
          JournalEntry.eid ++
        (wal_write_xlog_batch iid base input diff orc).remaining.map
          JournalEntry.eid
      = input.map JournalEntry.eid := by
  intro input
  induction input with
  | nil => intro diff orc; simp [wal_write_xlog_batch]
  | cons e rest ih =>
    intro diff orc
    simp only [wal_write_xlog_batch]
    split
    · simp only [List.map_cons, List.cons_append]
      rw [ih]
    · split
      · simp
      · simp

theorem batch_output_ne (iid : Nat) (base : VClock) (e : JournalEntry)
    (rest : List JournalEntry) (diff : VClock) (orc : List Int) :
    (wal_write_xlog_batch iid base (e :: rest) diff orc).output ≠ [] := by
  simp only [wal_write_xlog_batch]
  split
  · simp
  · split
    · simp
    · simp

theorem batch_remaining_lt (iid : Nat) (base : VClock)
    (e : JournalEntry) (rest : List JournalEntry) (diff : VClock)
    (orc : List Int) :
    (wal_write_xlog_batch iid base (e :: rest) diff orc).remaining.length
      < (e :: rest).length := by
  have h := batch_eids iid base (e :: rest) diff orc
  have hlen := congrArg List.length h
  simp only [List.length_append, List.length_map, List.length_cons] at hlen
  have hpos :
      0 < (wal_write_xlog_batch iid base (e :: rest) diff orc).output.length :=
    List.length_pos.mpr (batch_output_ne iid base e rest diff orc)
  simp only [List.length_cons]
  omega

theorem portions_vclock_mono (iid : Nat) :
    ∀ (fuel : Nat) (s : WalState) (input : List JournalEntry)
      (orc : List Int),
      (w2d_portions iid fuel s input orc).followOk = true →
      ∀ i, vclock_get s.vclock i
        ≤ vclock_get (w2d_portions iid fuel s input orc).s.vclock i := by
  intro fuel
  induction fuel with
  | zero =>
    intro s input orc _ i
    cases input <;> simp [w2d_portions]
  | succ fuel ih =>
    intro s input orc hok i
    cases input with
    | nil => simp [w2d_portions]
    | cons e rest =>
      by_cases hrc : (wal_write_xlog_batch iid s.vclock (e :: rest)
          vclock_create orc).rc < 0
      · simp only [w2d_portions, if_pos hrc]
        exact le_refl _
      · simp only [w2d_portions, if_neg hrc] at hok ⊢
        simp only [Bool.and_eq_true] at hok
        have hnn := batch_followOk_nonneg iid s.vclock (e :: rest)
          vclock_create orc vclock_nonneg_create hok.1
        have h1 : vclock_get s.vclock i ≤ vclock_get
            (vclock_merge s.vclock
              (wal_write_xlog_batch iid s.vclock (e :: rest)
                vclock_create orc).diff) i := by
          rw [vclock_get_merge]
          have := hnn i
          omega
        exact le_trans h1 (ih _ _ _ hok.2 i)

theorem portions_noflush (iid : Nat) (fuel : Nat) (s : WalState)
    (input : List JournalEntry) (orc : List Int) :
    (w2d_portions iid fuel s input orc).flushedAny = false →
    (w2d_portions iid fuel s input orc).s = s ∧
    (w2d_portions iid fuel s input orc).commit = [] := by
  intro h
  cases fuel with
  | zero => cases input <;> simp [w2d_portions]
  | succ fuel =>
    cases input with
    | nil => simp [w2d_portions]
    | cons e rest =>
      by_cases hrc : (wal_write_xlog_batch iid s.vclock (e :: rest)
          vclock_create orc).rc < 0
      · simp only [w2d_portions, if_pos hrc]
        exact ⟨by trivial, by trivial⟩
      · simp only [w2d_portions, if_neg hrc] at h
        simp at h

theorem portions_eids (iid : Nat) :
    ∀ (fuel : Nat) (input : List JournalEntry) (s : WalState)
      (orc : List Int), input.length < fuel →
      (w2d_portions iid fuel s input orc).commit.map JournalEntry.eid ++
        (w2d_portions iid fuel s input orc).rollbackNew.map JournalEntry.eid
      = input.map JournalEntry.eid := by
  intro fuel
  induction fuel with
  | zero => intro input s orc h; omega
  | succ fuel ih =>
    intro input s orc hlt
    cases input with
    | nil => simp [w2d_portions]
    | cons e rest =>
      by_cases hrc : (wal_write_xlog_batch iid s.vclock (e :: rest)
          vclock_create orc).rc < 0
      · simp only [w2d_portions, if_pos hrc]
        simp only [List.map_nil, List.nil_append, List.map_append]
        exact batch_eids iid s.vclock (e :: rest) vclock_create orc
      · have hrem := batch_remaining_lt iid s.vclock e rest vclock_create orc
        simp only [List.length_cons] at hrem hlt
        have hr := ih (wal_write_xlog_batch iid s.vclock (e :: rest)
            vclock_create orc).remaining
          { s with
            checkpoint_wal_size := s.checkpoint_wal_size +
              (wal_write_xlog_batch iid s.vclock (e :: rest)
                vclock_create orc).rc
            vclock := vclock_merge s.vclock
              (wal_write_xlog_batch iid s.vclock (e :: rest)
                vclock_create orc).diff }
          (wal_write_xlog_batch iid s.vclock (e :: rest)
            vclock_create orc).oracle (by omega)
        simp only [w2d_portions, if_neg hrc, List.map_append,
          List.append_assoc]
        rw [hr]
        exact batch_eids iid s.vclock (e :: rest) vclock_create orc

theorem rotate_vclock (s : WalState) (ok : Bool) :
    (wal_opt_rotate s ok).s.vclock = s.vclock := by
  simp only [wal_opt_rotate]
  repeat' split
  all_goals rfl

theorem falloc_retry_vclock (g : Int) (s : WalState) :
    (wal_fallocate_retry_state g s).vclock = s.vclock := by
  simp only [wal_fallocate_retry_state]
  repeat' split
  all_goals rfl

theorem falloc_go_vclock (g l : Int) :
    ∀ (fuel : Nat) (s : WalState) (orc : List FallocRes) (reqs : List Int)
      (del : Bool),
      (wal_fallocate_go g l fuel s orc reqs del).s.vclock = s.vclock := by
  intro fuel
  induction fuel with
  | zero => intro s orc reqs del; rfl
  | succ fuel ih =>
    intro s orc reqs del
    by_cases hle : l ≤ s.cur_allocated
    · simp [wal_fallocate_go, if_pos hle]
    · simp only [wal_fallocate_go, if_neg hle]
      match orc with
      | [] => rfl
      | FallocRes.ok :: rest => rfl
      | FallocRes.eio :: rest => rfl
      | FallocRes.enospc :: rest =>
        by_cases hg : xdir_has_garbage s.wal_dir g = true
        · simp only [if_pos hg]
          rw [ih, falloc_retry_vclock]
        · simp only [hg]
          rfl

theorem falloc_vclock (s : WalState) (len : Int) (orc : List FallocRes) :
    (wal_fallocate s len orc).s.vclock = s.vclock :=
  falloc_go_vclock _ _ _ s orc [] false

theorem falloc_go_requests (g l : Int) :
    ∀ (fuel : Nat) (s : WalState) (orc : List FallocRes) (reqs : List Int)
      (del : Bool),
      ∃ t, (wal_fallocate_go g l fuel s orc reqs del).requests
        = reqs ++ t := by
  intro fuel
  induction fuel with
  | zero => intro s orc reqs del; exact ⟨[], by simp [wal_fallocate_go]⟩
  | succ fuel ih =>
    intro s orc reqs del
    by_cases hle : l ≤ s.cur_allocated
    · exact ⟨[], by simp [wal_fallocate_go, if_pos hle]⟩
    · simp only [wal_fallocate_go, if_neg hle]
      match orc with
      | [] => exact ⟨[max l WAL_FALLOCATE_LEN], rfl⟩
      | FallocRes.ok :: rest => exact ⟨[max l WAL_FALLOCATE_LEN], rfl⟩
      | FallocRes.eio :: rest => exact ⟨[max l WAL_FALLOCATE_LEN], rfl⟩
      | FallocRes.enospc :: rest =>
        by_cases hg : xdir_has_garbage s.wal_dir g = true
        · simp only [if_pos hg]
          obtain ⟨t, ht⟩ := ih (wal_fallocate_retry_state g s) rest
            (reqs ++ [max l WAL_FALLOCATE_LEN]) true
          exact ⟨max l WAL_FALLOCATE_LEN :: t, by rw [ht]; simp⟩
        · simp only [hg]
          exact ⟨[max l WAL_FALLOCATE_LEN], rfl⟩

theorem falloc_go_notified (g l : Int) :
    ∀ (fuel : Nat) (s : WalState) (orc : List FallocRes) (reqs : List Int),
      (wal_fallocate_go g l fuel s orc reqs true).notified
        = some ((wal_fallocate_go g l fuel s orc reqs true).s.wal_dir.head?.getD
            (wal_fallocate_go g l fuel s orc reqs true).s.vclock) := by
  intro fuel
  induction fuel with
  | zero => intro s orc reqs; rfl
  | succ fuel ih =>
    intro s orc reqs
    by_cases hle : l ≤ s.cur_allocated
    · simp [wal_fallocate_go, if_pos hle]
    · simp only [wal_fallocate_go, if_neg hle]
      match orc with
      | [] => rfl
      | FallocRes.ok :: rest => rfl
      | FallocRes.eio :: rest => rfl
      | FallocRes.enospc :: rest =>
        by_cases hg : xdir_has_garbage s.wal_dir g = true
        · simp only [if_pos hg]
          exact ih (wal_fallocate_retry_state g s) rest _
        · simp only [hg]
          rfl

theorem falloc_go_dirchange (g l : Int) :
    ∀ (fuel : Nat) (s : WalState) (orc : List FallocRes) (reqs : List Int)
      (del : Bool),
      (wal_fallocate_go g l fuel s orc reqs del).s.wal_dir ≠ s.wal_dir →
      (wal_fallocate_go g l fuel s orc reqs del).notified
        = some ((wal_fallocate_go g l fuel s orc reqs del).s.wal_dir.head?.getD
            (wal_fallocate_go g l fuel s orc reqs del).s.vclock) := by
  intro fuel
  induction fuel with
  | zero => intro s orc reqs del h; exact absurd rfl h
  | succ fuel _ =>
    intro s orc reqs del h
    by_cases hle : l ≤ s.cur_allocated
    · simp only [wal_fallocate_go, if_pos hle] at h
      exact absurd rfl h
    · simp only [wal_fallocate_go, if_neg hle] at h ⊢
      match orc with
      | [] => exact absurd rfl h
      | FallocRes.ok :: rest => exact absurd rfl h
      | FallocRes.eio :: rest => exact absurd rfl h
      | FallocRes.enospc :: rest =>
        by_cases hg : xdir_has_garbage s.wal_dir g = true
        · simp only [if_pos hg]
          exact falloc_go_notified g l fuel (wal_fallocate_retry_state g s)
            rest _
        · simp only [hg] at h ⊢
          exact absurd rfl h

/-- **C1.**  For every batch of journal entries processed by the WAL writer
in FIFO order against prior writer vclock V, each row with `replica_id = 0`
is assigned `lsn = V[instance_id] + diff.inc(instance_id)`, its replica id
is set to the instance id, its tsn is set to the lsn of the first local row
of its entry, and `is_commit` is marked on the entry's last row; in
particular with pre-state `{1:5}` and entries A (one row) then B (two rows)
on instance 1, A's row gets lsn 6, B's rows get lsns 7 and 8 with `tsn = 7`
and `is_commit` on the last row, and the writer vclock afterwards is
`{1:8}`. -/
theorem c1_lsn_assignment :
    (∀ (iid : Nat) (base diff : VClock) (rows : List XrowHeader),
      (∀ r ∈ rows, r.replica_id = 0) →
      0 ≤ vclock_get base iid + vclock_get diff iid →
      (wal_assign_lsn iid diff base rows).rows.length = rows.length ∧
      ∀ j, j < rows.length →
        ((wal_assign_lsn iid diff base rows).rows.getD j xrow0).replica_id
            = iid ∧
        ((wal_assign_lsn iid diff base rows).rows.getD j xrow0).lsn
            = vclock_get base iid + vclock_get diff iid + (j + 1) ∧
        ((wal_assign_lsn iid diff base rows).rows.getD j xrow0).tsn
            = vclock_get base iid + vclock_get diff iid + 1 ∧
        (((wal_assign_lsn iid diff base rows).rows.getD j xrow0).is_commit
            = true ↔ j = rows.length - 1)) ∧
    ((wal_write_to_disk 1 s_s2 m_s2 orc_s2).s.vclock = [0, 8] ∧
     (((wal_write_to_disk 1 s_s2 m_s2 orc_s2).msg.commit.getD 0
        je0).rows.getD 0 xrow0).lsn = 6 ∧
     (((wal_write_to_disk 1 s_s2 m_s2 orc_s2).msg.commit.getD 0
        je0).rows.getD 0 xrow0).tsn = 6 ∧
     (((wal_write_to_disk 1 s_s2 m_s2 orc_s2).msg.commit.getD 0
        je0).rows.getD 0 xrow0).replica_id = 1 ∧
     (((wal_write_to_disk 1 s_s2 m_s2 orc_s2).msg.commit.getD 0
        je0).rows.getD 0 xrow0).is_commit = true ∧
     (((wal_write_to_disk 1 s_s2 m_s2 orc_s2).msg.commit.getD 1
        je0).rows.getD 0 xrow0).lsn = 7 ∧
     (((wal_write_to_disk 1 s_s2 m_s2 orc_s2).msg.commit.getD 1
        je0).rows.getD 0 xrow0).tsn = 7 ∧
     (((wal_write_to_disk 1 s_s2 m_s2 orc_s2).msg.commit.getD 1
        je0).rows.getD 0 xrow0).is_commit = false ∧
     (((wal_write_to_disk 1 s_s2 m_s2 orc_s2).msg.commit.getD 1
        je0).rows.getD 1 xrow0).lsn = 8 ∧
     (((wal_write_to_disk 1 s_s2 m_s2 orc_s2).msg.commit.getD 1
        je0).rows.getD 1 xrow0).tsn = 7 ∧
     (((wal_write_to_disk 1 s_s2 m_s2 orc_s2).msg.commit.getD 1
        je0).rows.getD 1 xrow0).is_commit = true) :=
  ⟨fun iid base diff rows hloc hnn =>
    assign_all_local iid base diff rows hloc hnn, by decide⟩

/-- Witness for C1: the general statement applied to a concrete two-row
entry over base `{1:5}` and an empty diff. -/
theorem c1_lsn_assignment_witness :
    (∀ r ∈ [row_local, row_local], r.replica_id = 0) ∧
    ((wal_assign_lsn 1 [] [0, 5] [row_local, row_local]).rows.getD 1
      xrow0).lsn = 7 := by
  refine ⟨by decide, ?_⟩
  have h := ((c1_lsn_assignment.1 1 [0, 5] [] [row_local, row_local]
    (by decide) (by decide)).2 1 (by decide)).2.1
  simpa using h

/-- **C9.**  With `wal_mode = none`, every write completes synchronously on
the TX thread: it assigns LSNs to the entry's rows, merges the resulting
diff into the writer vclock, copies the writer vclock to the TX-side
replicaset vclock, sets the entry's result to the new vclock signature, and
performs no disk I/O (every other writer field is untouched). -/
theorem c9_wal_mode_none (iid : Nat) (s : WalState) (rv : VClock)
    (entry : JournalEntry) :
    (wal_write_in_wal_mode_none iid s rv entry).s.vclock
        = vclock_merge s.vclock
            (wal_assign_lsn iid vclock_create s.vclock entry.rows).diff ∧
    (wal_write_in_wal_mode_none iid s rv entry).replicaset
        = (wal_write_in_wal_mode_none iid s rv entry).s.vclock ∧
    (wal_write_in_wal_mode_none iid s rv entry).entry.res
        = vclock_sum (wal_write_in_wal_mode_none iid s rv entry).s.vclock ∧
    (wal_write_in_wal_mode_none iid s rv entry).entry.rows
        = (wal_assign_lsn iid vclock_create s.vclock entry.rows).rows ∧
    (wal_write_in_wal_mode_none iid s rv entry).completions
        = [(entry.eid,
            vclock_sum (wal_write_in_wal_mode_none iid s rv entry).s.vclock)] ∧
    (wal_write_in_wal_mode_none iid s rv entry).s.wal_dir = s.wal_dir ∧
    (wal_write_in_wal_mode_none iid s rv entry).s.cur_open = s.cur_open ∧
    (wal_write_in_wal_mode_none iid s rv entry).s.cur_offset = s.cur_offset ∧
    (wal_write_in_wal_mode_none iid s rv entry).s.cur_allocated
        = s.cur_allocated ∧
    (wal_write_in_wal_mode_none iid s rv entry).s.checkpoint_vclock
        = s.checkpoint_vclock ∧
    (wal_write_in_wal_mode_none iid s rv entry).s.rollback = s.rollback ∧
    (wal_write_in_wal_mode_none iid s rv entry).s.in_rollback
        = s.in_rollback ∧
    (wal_write_in_wal_mode_none iid s rv entry).s.pipe_input
        = s.pipe_input :=
  ⟨rfl, rfl, rfl, rfl, rfl, rfl, rfl, rfl, rfl, rfl, rfl, rfl, rfl⟩

/-- **C10.**  Every batch message returning from the WAL thread carries the
writer vclock as of the moment batch processing finished — on every path,
including batches whose entries were all moved to the rollback list — and
the TX-side completion handler copies that vclock into the TX replicaset
vclock, schedules exactly the committed entries in FIFO order and moves the
rollback list into the writer's rollback queue. -/
theorem c10_batch_vclock_to_tx :
    (∀ (iid : Nat) (s : WalState) (m : WalMsgM) (orc : W2DOracle),
      (wal_write_to_disk iid s m orc).msg.vclock
        = (wal_write_to_disk iid s m orc).s.vclock) ∧
    (∀ (tx : TxSt) (batch : WalMsgM),
      (tx_schedule_commit tx batch).1.replicaset_vclock = batch.vclock ∧
      (tx_schedule_commit tx batch).2 = batch.commit ∧
      (tx_schedule_commit tx batch).1.writer_rollback
        = tx.writer_rollback ++ batch.rollback) := by
  constructor
  · intro iid s m orc
    simp only [wal_write_to_disk]
    repeat' split
    all_goals rfl
  · intro tx batch
    refine ⟨rfl, rfl, ?_⟩
    · simp only [tx_schedule_commit]
      split
      · rfl
      · rename_i hr
        push_neg at hr
        simp [hr]

/-- Counterexample to **C4** as stated: with the `in_rollback` route set but
the TX-side rollback queue still empty (the window while the rollback
message travels between the threads), `wal_write` does not fail immediately:
it enqueues the entry into a fresh batch and returns 0 without completing
it. -/
theorem c4_counterexample :
    (s_c4.rollback ≠ [] ∨ s_c4.in_rollback = true) ∧
    (wal_write s_c4 e_c4).rc = 0 ∧
    (wal_write s_c4 e_c4).completions = [] ∧
    (wal_write s_c4 e_c4).s.pipe_input ≠ [] := by
  decide

/-- **C4 (amended).**  Whenever the writer's TX-side rollback queue is
non-empty, `wal_write` fails immediately — completing the entry with
`res = -1` and leaving the writer state unchanged (when only the
`in_rollback` route is set the entry is enqueued and rolled back on arrival
instead); and whenever the rollback queue is non-empty or the `in_rollback`
route is set, `wal_sync` fails with `ER_WAL_IO` and `wal_begin_checkpoint`
fails with `ER_CHECKPOINT_ROLLBACK`, each leaving the writer state
unchanged. -/
theorem c4_rollback_barrier :
    (∀ (s : WalState) (entry : JournalEntry), s.rollback ≠ [] →
      wal_write s entry = ⟨s, -1, [(entry.eid, -1)]⟩) ∧
    (∀ s : WalState, s.wal_mode ≠ WalMode.none →
      (s.rollback ≠ [] ∨ s.in_rollback = true) →
      wal_sync s = Except.error WalErr.walIo ∧
      wal_begin_checkpoint s
        = ⟨s, Except.error WalErr.checkpointRollback⟩) := by
  constructor
  · intro s entry h
    simp [wal_write, h]
  · intro s hm h
    by_cases hq : s.rollback = []
    · have hin : s.in_rollback = true := by
        rcases h with h | h
        · exact absurd hq h
        · exact h
      constructor
      · simp [wal_sync, hm, hq, hin]
      · simp [wal_begin_checkpoint, hm, hq, hin]
    · constructor
      · simp [wal_sync, hm, hq]
      · simp [wal_begin_checkpoint, hm, hq]

/-- Witness for C4 (amended) at a state whose rollback queue holds one
entry. -/
theorem c4_rollback_barrier_witness :
    s_c4q.rollback ≠ [] ∧ s_c4q.wal_mode ≠ WalMode.none ∧
    wal_write s_c4q e_c4 = ⟨s_c4q, -1, [(9, -1)]⟩ ∧
    wal_sync s_c4q = Except.error WalErr.walIo ∧
    wal_begin_checkpoint s_c4q
      = ⟨s_c4q, Except.error WalErr.checkpointRollback⟩ := by
  refine ⟨by decide, by decide, ?_, ?_, ?_⟩
  · exact c4_rollback_barrier.1 s_c4q e_c4 (by decide)
  · exact (c4_rollback_barrier.2 s_c4q (by decide) (Or.inl (by decide))).1
  · exact (c4_rollback_barrier.2 s_c4q (by decide) (Or.inl (by decide))).2

/-- **C7.**  At the relay edge, for every streamed row: a replica-local row
with nil replica id is dropped; a replica-local row with a non-nil replica
id is rewritten to `{group_id = default, type = NOP, bodycnt = 0}` with its
lsn and replica id preserved; in a subscribe session a row whose replica id
equals the bound replica's id is dropped unless its lsn does not exceed
`local_vclock_at_subscribe[replica_id]`; a final-join session (no bound
replica) sends all rows. -/
theorem c7_relay_row_filter (relay : Relay) (p : XrowHeader) :
    (p.group_id = GROUP_LOCAL → p.replica_id = REPLICA_ID_NIL →
      relay_send_row relay p = none) ∧
    (p.group_id = GROUP_LOCAL → p.replica_id ≠ REPLICA_ID_NIL →
      (relay.replica_id = none →
        relay_send_row relay p
          = some { p with
                   type := IPROTO_NOP
                   group_id := GROUP_DEFAULT
                   bodycnt := 0 }) ∧
      (∀ id, relay.replica_id = some id →
        (p.replica_id ≠ id ∨
          p.lsn ≤ vclock_get relay.local_vclock_at_subscribe p.replica_id) →
        relay_send_row relay p
          = some { p with
                   type := IPROTO_NOP
                   group_id := GROUP_DEFAULT
                   bodycnt := 0 }) ∧
      (∀ id, relay.replica_id = some id → p.replica_id = id →
        ¬ p.lsn ≤ vclock_get relay.local_vclock_at_subscribe p.replica_id →
        relay_send_row relay p = none)) ∧
    (p.group_id ≠ GROUP_LOCAL →
      (relay.replica_id = none → relay_send_row relay p = some p) ∧
      (∀ id, relay.replica_id = some id →
        (p.replica_id ≠ id ∨
          p.lsn ≤ vclock_get relay.local_vclock_at_subscribe p.replica_id) →
        relay_send_row relay p = some p) ∧
      (∀ id, relay.replica_id = some id → p.replica_id = id →
        ¬ p.lsn ≤ vclock_get relay.local_vclock_at_subscribe p.replica_id →
        relay_send_row relay p = none)) := by
  refine ⟨?_, ?_, ?_⟩
  · intro hl hn
    simp [relay_send_row, hl, hn]
  · intro hl hn
    refine ⟨?_, ?_, ?_⟩
    · intro hrn
      simp [relay_send_row, hl, hn, hrn]
    · intro id hrid hc
      simp only [relay_send_row, hl, hn, hrid]
      simp only [if_pos rfl, and_true, if_neg hn, ite_true, eq_self_iff_true]
      simp [hc]
    · intro id hrid heq hlt
      have hcond : ¬ (p.replica_id ≠ id ∨
          p.lsn ≤ vclock_get relay.local_vclock_at_subscribe p.replica_id) := by
        push_neg
        exact ⟨heq, not_le.mp hlt⟩
      simp only [relay_send_row, hl, hn, hrid]
      simp only [if_pos rfl, and_true, if_neg hn, ite_true, eq_self_iff_true]
      simp [hcond]
  · intro hl
    refine ⟨?_, ?_, ?_⟩
    · intro hrn
      simp [relay_send_row, hl, hrn]
    · intro id hrid hc
      simp only [relay_send_row, hrid]
      rw [if_neg (by simp [hl]), if_neg hl]
      rw [if_pos hc]
    · intro id hrid heq hlt
      simp only [relay_send_row, hrid]
      rw [if_neg (by simp [hl]), if_neg hl]
      rw [if_neg]
      push_neg
      exact ⟨heq, not_le.mp hlt⟩

/-- Witness for C7 at scenario S6: the local row of replica 7 with lsn 42 is
dropped by replica 7's relay, rewritten to a NOP for replica 9's relay, and
rewritten and sent during a final join. -/
theorem c7_relay_row_filter_witness :
    row_s6.group_id = GROUP_LOCAL ∧ row_s6.replica_id ≠ REPLICA_ID_NIL ∧
    relay_send_row relay7 row_s6 = none ∧
    relay_send_row relay9 row_s6
      = some { row_s6 with
               type := IPROTO_NOP
               group_id := GROUP_DEFAULT
               bodycnt := 0 } ∧
    relay_send_row relayJoin row_s6
      = some { row_s6 with
               type := IPROTO_NOP
               group_id := GROUP_DEFAULT
               bodycnt := 0 } := by
  refine ⟨by decide, by decide, ?_, ?_, ?_⟩
  · exact ((c7_relay_row_filter relay7 row_s6).2.1 (by decide)
      (by decide)).2.2 7 rfl (by decide) (by decide)
  · exact ((c7_relay_row_filter relay9 row_s6).2.1 (by decide)
      (by decide)).2.1 9 rfl (Or.inl (by decide))
  · exact ((c7_relay_row_filter relayJoin row_s6).2.1 (by decide)
      (by decide)).1 rfl

theorem tx_rollback_order (tx : TxSt) (b : WalMsgM)
    (h : tx.writer_rollback = []) :
    (tx_schedule_rollback (tx_schedule_commit tx b).1).2
      = b.rollback.reverse := by
  simp only [tx_schedule_commit, tx_schedule_rollback]
  split
  · simp [h]
  · rename_i hr
    push_neg at hr
    simp [h, hr]

theorem map_eid_resfix (l : List JournalEntry) :
    (l.map (fun e => { e with res := -1 })).map JournalEntry.eid
      = l.map JournalEntry.eid := by
  rw [List.map_map]
  rfl

theorem w2d_noflush (iid : Nat) (s : WalState) (m : WalMsgM)
    (orc : W2DOracle)
    (h : (wal_write_to_disk iid s m orc).flushedAny = false) :
    (wal_write_to_disk iid s m orc).s.vclock = s.vclock ∧
    (wal_write_to_disk iid s m orc).msg.commit = [] := by
  by_cases h1 : s.in_rollback = true
  · constructor <;> simp [wal_write_to_disk, if_pos h1]
  · by_cases h2 : (wal_opt_rotate s orc.rotateOk).rc < 0
    · constructor
      · simp only [wal_write_to_disk, if_neg h1, if_pos h2]
        exact rotate_vclock s orc.rotateOk
      · simp [wal_write_to_disk, if_neg h1, if_pos h2]
    · by_cases h3 : (wal_fallocate (wal_opt_rotate s orc.rotateOk).s
          m.approx_len orc.falloc).rc < 0
      · constructor
        · simp only [wal_write_to_disk, if_neg h1, if_neg h2, if_pos h3]
          rw [falloc_vclock, rotate_vclock]
        · simp [wal_write_to_disk, if_neg h1, if_neg h2, if_pos h3]
      · simp only [wal_write_to_disk, if_neg h1, if_neg h2, if_neg h3] at h ⊢
        have hp : (w2d_portions iid (m.commit.length + 1)
            (wal_fallocate (wal_opt_rotate s orc.rotateOk).s m.approx_len
              orc.falloc).s m.commit orc.xlog).flushedAny = false := by
          split at h
          · exact h
          · exact h
        obtain ⟨hps, hpc⟩ :=
          portions_noflush iid (m.commit.length + 1) _ m.commit orc.xlog hp
        constructor
        · split
          · show (if _ then _ else _ : WalState).vclock = s.vclock
            split <;>
              (show (w2d_portions iid (m.commit.length + 1)
                  (wal_fallocate (wal_opt_rotate s orc.rotateOk).s
                    m.approx_len orc.falloc).s m.commit orc.xlog).s.vclock
                  = s.vclock
               rw [hps, falloc_vclock, rotate_vclock])
          · show (if _ then _ else _ : WalState).vclock = s.vclock
            split <;>
              (show (w2d_portions iid (m.commit.length + 1)
                  (wal_fallocate (wal_opt_rotate s orc.rotateOk).s
                    m.approx_len orc.falloc).s m.commit orc.xlog).s.vclock
                  = s.vclock
               rw [hps, falloc_vclock, rotate_vclock])
        · split
          · exact hpc
          · exact hpc

theorem w2d_rollback_res (iid : Nat) (s : WalState) (m : WalMsgM)
    (orc : W2DOracle) (hm : m.rollback = [])
    (hres : ∀ e ∈ m.commit, e.res = -1) :
    ∀ e ∈ (wal_write_to_disk iid s m orc).msg.rollback, e.res = -1 := by
  intro e he
  by_cases h1 : s.in_rollback = true
  · simp only [wal_write_to_disk, if_pos h1, hm, List.nil_append] at he
    exact hres e he
  · by_cases h2 : (wal_opt_rotate s orc.rotateOk).rc < 0
    · simp only [wal_write_to_disk, if_neg h1, if_pos h2, hm,
        List.nil_append] at he
      exact hres e he
    · by_cases h3 : (wal_fallocate (wal_opt_rotate s orc.rotateOk).s
          m.approx_len orc.falloc).rc < 0
      · simp only [wal_write_to_disk, if_neg h1, if_neg h2, if_pos h3, hm,
          List.nil_append] at he
        exact hres e he
      · simp only [wal_write_to_disk, if_neg h1, if_neg h2, if_neg h3,
          hm, List.nil_append] at he
        split at he
        · rename_i hempty
          rw [hempty] at he
          cases he
        · simp only [List.mem_map] at he
          obtain ⟨x, _, hx⟩ := he
          rw [← hx]

theorem w2d_eids (iid : Nat) (s : WalState) (m : WalMsgM)
    (orc : W2DOracle) (hm : m.rollback = []) :
    (wal_write_to_disk iid s m orc).msg.commit.map JournalEntry.eid ++
      (wal_write_to_disk iid s m orc).msg.rollback.map JournalEntry.eid
    = m.commit.map JournalEntry.eid := by
  by_cases h1 : s.in_rollback = true
  · simp [wal_write_to_disk, if_pos h1, hm]
  · by_cases h2 : (wal_opt_rotate s orc.rotateOk).rc < 0
    · simp [wal_write_to_disk, if_neg h1, if_pos h2, hm]
    · by_cases h3 : (wal_fallocate (wal_opt_rotate s orc.rotateOk).s
          m.approx_len orc.falloc).rc < 0
      · simp [wal_write_to_disk, if_neg h1, if_neg h2, if_pos h3, hm]
      · have heids := portions_eids iid (m.commit.length + 1) m.commit
          (wal_fallocate (wal_opt_rotate s orc.rotateOk).s m.approx_len
            orc.falloc).s orc.xlog (by omega)
        simp only [wal_write_to_disk, if_neg h1, if_neg h2, if_neg h3,
          hm, List.nil_append]
        split
        · rename_i hempty
          rw [hempty] at heids
          simpa [hempty] using heids
        · rw [map_eid_resfix]
          exact heids

theorem w2d_rollback_in_rollback (iid : Nat) (s : WalState) (m : WalMsgM)
    (orc : W2DOracle) :
    (wal_write_to_disk iid s m orc).msg.rollback ≠ [] →
    (wal_write_to_disk iid s m orc).s.in_rollback = true := by
  intro h
  by_cases h1 : s.in_rollback = true
  · simpa [wal_write_to_disk, if_pos h1] using h1
  · by_cases h2 : (wal_opt_rotate s orc.rotateOk).rc < 0
    · simp [wal_write_to_disk, if_neg h1, if_pos h2]
    · by_cases h3 : (wal_fallocate (wal_opt_rotate s orc.rotateOk).s
          m.approx_len orc.falloc).rc < 0
      · simp [wal_write_to_disk, if_neg h1, if_neg h2, if_pos h3]
      · simp only [wal_write_to_disk, if_neg h1, if_neg h2, if_neg h3] at h ⊢
        split
        · rename_i hempty
          simp [if_pos hempty, hempty] at h
        · rfl

/-- Counterexample to **C2** as stated: a batch A then C where A's encode
flushes the xlog (5 bytes) and C's encode then fails.  The batch enters
cascading rollback (C is rolled back and `in_rollback` is set), yet entry A
stays on the commit list with positive result 6 and the writer vclock
advances from `{1:5}` to `{1:6}` — "every entry completed with res = -1"
and "writer vclock unchanged" both fail. -/
theorem c2_counterexample :
    (wal_write_to_disk 1 s_s2 m_c2x orc_c2x).msg.rollback ≠ [] ∧
    (wal_write_to_disk 1 s_s2 m_c2x orc_c2x).s.in_rollback = true ∧
    ((wal_write_to_disk 1 s_s2 m_c2x orc_c2x).msg.commit.getD 0 je0).res
      = 6 ∧
    (wal_write_to_disk 1 s_s2 m_c2x orc_c2x).msg.commit ≠ [] ∧
    (wal_write_to_disk 1 s_s2 m_c2x orc_c2x).s.vclock ≠ s_s2.vclock := by
  decide

/-- **C2 (amended).**  For every batch that enters cascading rollback, the
entries of the failing flush portion together with all still-unprocessed
entries are moved to the rollback list and completed with `res = -1`; their
completion callbacks fire in strict reverse FIFO order; the commit and
rollback lists together are exactly the batch in FIFO order; the writer
moves to rollback mode; and the writer vclock is unchanged from before the
batch whenever no portion of the batch was flushed before the failure
(entries of earlier successfully flushed portions complete normally and
advance the vclock). -/
theorem c2_cascading_rollback (iid : Nat) (s : WalState) (m : WalMsgM)
    (orc : W2DOracle) (hm : m.rollback = [])
    (hres : ∀ e ∈ m.commit, e.res = -1) :
    (∀ e ∈ (wal_write_to_disk iid s m orc).msg.rollback, e.res = -1) ∧
    ((wal_write_to_disk iid s m orc).msg.commit.map JournalEntry.eid ++
      (wal_write_to_disk iid s m orc).msg.rollback.map JournalEntry.eid
      = m.commit.map JournalEntry.eid) ∧
    (∀ tx : TxSt, tx.writer_rollback = [] →
      (tx_schedule_rollback
        (tx_schedule_commit tx (wal_write_to_disk iid s m orc).msg).1).2
      = (wal_write_to_disk iid s m orc).msg.rollback.reverse) ∧
    ((wal_write_to_disk iid s m orc).flushedAny = false →
      (wal_write_to_disk iid s m orc).s.vclock = s.vclock ∧
      (wal_write_to_disk iid s m orc).msg.commit = []) ∧
    ((wal_write_to_disk iid s m orc).msg.rollback ≠ [] →
      (wal_write_to_disk iid s m orc).s.in_rollback = true) :=
  ⟨w2d_rollback_res iid s m orc hm hres,
   w2d_eids iid s m orc hm,
   fun tx htx => tx_rollback_order tx _ htx,
   fun h => w2d_noflush iid s m orc h,
   w2d_rollback_in_rollback iid s m orc⟩

/-- Witness for C2 (amended): the three-entry batch whose second entry's
encode fails before any flush: all three entries end on the rollback list
with `res = -1`, completions fire C, B, A, and the writer vclock stays
`{1:5}`. -/
theorem c2_cascading_rollback_witness :
    m_c2w.rollback = [] ∧ (∀ e ∈ m_c2w.commit, e.res = -1) ∧
    ((wal_write_to_disk 1 s_s2 m_c2w orc_c2w).msg.rollback.map
        JournalEntry.eid = [1, 2, 3]) ∧
    (∀ e ∈ (wal_write_to_disk 1 s_s2 m_c2w orc_c2w).msg.rollback,
      e.res = -1) ∧
    ((tx_schedule_rollback
        (tx_schedule_commit ⟨[], []⟩
          (wal_write_to_disk 1 s_s2 m_c2w orc_c2w).msg).1).2.map
        JournalEntry.eid = [3, 2, 1]) ∧
    (wal_write_to_disk 1 s_s2 m_c2w orc_c2w).s.vclock = s_s2.vclock := by
  refine ⟨by decide, by decide, by decide, ?_, ?_, ?_⟩
  · exact (c2_cascading_rollback 1 s_s2 m_c2w orc_c2w (by decide)
      (by decide)).1
  · rw [(c2_cascading_rollback 1 s_s2 m_c2w orc_c2w (by decide)
      (by decide)).2.2.1 ⟨[], []⟩ rfl]
    decide
  · exact ((c2_cascading_rollback 1 s_s2 m_c2w orc_c2w (by decide)
      (by decide)).2.2.2.1 (by decide)).1

/-- **C3.**  The writer vclock never decreases on any component: the
tentative diff accumulated for a flush portion is merged into the writer
vclock only after that portion flushed, and on failure it is discarded —
in particular a batch with no flushed portion leaves the vclock untouched.
The hypothesis is the `vclock_follow` assertion of the source: every
foreign row carries an lsn ahead of the accumulated diff component. -/
theorem c3_vclock_monotone (iid : Nat) (s : WalState) (m : WalMsgM)
    (orc : W2DOracle)
    (hok : (wal_write_to_disk iid s m orc).followOk = true) :
    (∀ i, vclock_get s.vclock i
        ≤ vclock_get (wal_write_to_disk iid s m orc).s.vclock i) ∧
    ((wal_write_to_disk iid s m orc).flushedAny = false →
      (wal_write_to_disk iid s m orc).s.vclock = s.vclock) := by
  refine ⟨?_, fun h => (w2d_noflush iid s m orc h).1⟩
  intro i
  by_cases h1 : s.in_rollback = true
  · simp [wal_write_to_disk, if_pos h1]
  · by_cases h2 : (wal_opt_rotate s orc.rotateOk).rc < 0
    · simp only [wal_write_to_disk, if_neg h1, if_pos h2]
      rw [rotate_vclock]
    · by_cases h3 : (wal_fallocate (wal_opt_rotate s orc.rotateOk).s
          m.approx_len orc.falloc).rc < 0
      · simp only [wal_write_to_disk, if_neg h1, if_neg h2, if_pos h3]
        rw [falloc_vclock, rotate_vclock]
      · simp only [wal_write_to_disk, if_neg h1, if_neg h2, if_neg h3]
          at hok ⊢
        have hpok : (w2d_portions iid (m.commit.length + 1)
            (wal_fallocate (wal_opt_rotate s orc.rotateOk).s m.approx_len
              orc.falloc).s m.commit orc.xlog).followOk = true := by
          split at hok
          · exact hok
          · exact hok
        have hmono := portions_vclock_mono iid (m.commit.length + 1)
          (wal_fallocate (wal_opt_rotate s orc.rotateOk).s m.approx_len
            orc.falloc).s m.commit orc.xlog hpok i
        rw [falloc_vclock, rotate_vclock] at hmono
        split
        · split <;> exact hmono
        · split <;> exact hmono

/-- Witness for C3: the S2 batch run satisfies the follow assertion and its
writer vclock component 1 does not decrease. -/
theorem c3_vclock_monotone_witness :
    (wal_write_to_disk 1 s_s2 m_s2 orc_s2).followOk = true ∧
    vclock_get s_s2.vclock 1
      ≤ vclock_get (wal_write_to_disk 1 s_s2 m_s2 orc_s2).s.vclock 1 :=
  ⟨by decide, (c3_vclock_monotone 1 s_s2 m_s2 orc_s2 (by decide)).1 1⟩

theorem falloc_retry_gc_first_raise (gcLsn : Int) (s : WalState) (w : VClock)
    (hw : second_vclock { s with
        wal_dir := xdir_collect_garbage_one s.wal_dir gcLsn } = some w)
    (hcmp : vclock_compare s.gc_first_vclock w = VCmp.lt) :
    (wal_fallocate_retry_state gcLsn s).gc_first_vclock = w := by
  simp only [wal_fallocate_retry_state, hw]
  rw [if_pos hcmp]

theorem falloc_retry_gc_first_cases (gcLsn : Int) (s : WalState) :
    (wal_fallocate_retry_state gcLsn s).gc_first_vclock
        = s.gc_first_vclock ∨
      some ((wal_fallocate_retry_state gcLsn s).gc_first_vclock)
        = (wal_fallocate_retry_state gcLsn s).gc_wal_vclock := by
  simp only [wal_fallocate_retry_state]
  split
  · rename_i w heq
    split
    · right
      rw [heq]
    · left
      rfl
  · left
    rfl

/-- Counterexample to the "raises `gc_first_vclock` to at least that point"
part of **C5**: with `gc_first_vclock = {2:1}`, incomparable with every
directory vclock, ENOSPC recovery deletes V0 and refreshes
`gc_wal_vclock = {1:3}` but leaves `gc_first_vclock = {2:1}`, which does not
dominate the new point. -/
theorem c5_counterexample :
    (wal_fallocate s_c5 10 orc_s4).rc = 0 ∧
    (wal_fallocate s_c5 10 orc_s4).s.wal_dir = [[0, 2], [0, 3], [0, 4]] ∧
    (wal_fallocate s_c5 10 orc_s4).s.gc_wal_vclock = some [0, 3] ∧
    (wal_fallocate s_c5 10 orc_s4).s.gc_first_vclock = [0, 0, 1] ∧
    vclock_le [0, 3] [0, 0, 1] = false := by
  decide

/-- **C5 (amended).**  Before writing a batch the WAL preallocates
`max(2 × approx_len, FALLOCATE_LEN)` bytes; on ENOSPC each retry deletes
exactly one oldest segment whose starting vclock precedes the checkpoint
vclock (and is therefore not the current segment), updates `gc_wal_vclock`
to the directory's second vclock, and raises `gc_first_vclock` to that
point when it was strictly below it (when the two are incomparable,
`gc_first_vclock` is left unchanged); when no such segment remains the
write fails and cascading rollback begins; after any deletion TX is
notified with the new oldest retained vclock — for directory
{V0, V1, V2, V3} with checkpoint = V2, the deleted segment is V0 and the
notification vclock equals V1. -/
theorem c5_enospc_recovery :
    (∀ (s : WalState) (len : Int) (orc : List FallocRes),
      s.cur_allocated < 2 * len →
      (wal_fallocate s len orc).requests.head?
        = some (max (2 * len) WAL_FALLOCATE_LEN)) ∧
    (∀ (gcLsn len : Int) (fuel : Nat) (s : WalState) (orc : List FallocRes)
      (reqs : List Int) (del : Bool), ¬ len ≤ s.cur_allocated →
      xdir_has_garbage s.wal_dir gcLsn = true →
      wal_fallocate_go gcLsn len (fuel + 1) s (FallocRes.enospc :: orc)
          reqs del
        = wal_fallocate_go gcLsn len fuel
            (wal_fallocate_retry_state gcLsn s) orc
            (reqs ++ [max len WAL_FALLOCATE_LEN]) true) ∧
    (∀ (gcLsn : Int) (s : WalState),
      xdir_has_garbage s.wal_dir gcLsn = true →
      (wal_fallocate_retry_state gcLsn s).wal_dir = s.wal_dir.tail ∧
      vclock_sum (s.wal_dir.headD vclock_create) < gcLsn ∧
      (wal_fallocate_retry_state gcLsn s).gc_wal_vclock
        = second_vclock { s with wal_dir := s.wal_dir.tail }) ∧
    (∀ (gcLsn : Int) (s : WalState) (w : VClock),
      second_vclock { s with
        wal_dir := xdir_collect_garbage_one s.wal_dir gcLsn } = some w →
      vclock_compare s.gc_first_vclock w = VCmp.lt →
      (wal_fallocate_retry_state gcLsn s).gc_first_vclock = w) ∧
    (∀ (gcLsn : Int) (s : WalState),
      (wal_fallocate_retry_state gcLsn s).gc_first_vclock
          = s.gc_first_vclock ∨
        some ((wal_fallocate_retry_state gcLsn s).gc_first_vclock)
          = (wal_fallocate_retry_state gcLsn s).gc_wal_vclock) ∧
    (∀ (gcLsn len : Int) (fuel : Nat) (s : WalState) (orc : List FallocRes)
      (reqs : List Int) (del : Bool), ¬ len ≤ s.cur_allocated →
      xdir_has_garbage s.wal_dir gcLsn = false →
      (wal_fallocate_go gcLsn len (fuel + 1) s (FallocRes.enospc :: orc)
          reqs del).rc = -1 ∧
      (wal_fallocate_go gcLsn len (fuel + 1) s (FallocRes.enospc :: orc)
          reqs del).s = s) ∧
    (∀ (iid : Nat) (s : WalState) (m : WalMsgM) (orc : W2DOracle),
      ¬ s.in_rollback = true →
      ¬ (wal_opt_rotate s orc.rotateOk).rc < 0 →
      (wal_fallocate (wal_opt_rotate s orc.rotateOk).s m.approx_len
          orc.falloc).rc < 0 →
      (wal_write_to_disk iid s m orc).s.in_rollback = true ∧
      (wal_write_to_disk iid s m orc).msg.rollback
        = m.rollback ++ m.commit ∧
      (wal_write_to_disk iid s m orc).msg.commit = []) ∧
    (∀ (s : WalState) (len : Int) (orc : List FallocRes),
      (wal_fallocate s len orc).s.wal_dir ≠ s.wal_dir →
      (wal_fallocate s len orc).notified
        = some ((wal_fallocate s len orc).s.wal_dir.head?.getD
            (wal_fallocate s len orc).s.vclock)) ∧
    ((wal_fallocate s_s4 10 orc_s4).rc = 0 ∧
     (wal_fallocate s_s4 10 orc_s4).s.wal_dir = [[0, 2], [0, 3], [0, 4]] ∧
     (wal_fallocate s_s4 10 orc_s4).notified = some [0, 2] ∧
     (wal_fallocate s_s4 10 orc_s4).s.gc_wal_vclock = some [0, 3] ∧
     (wal_fallocate s_s4 10 orc_s4).s.gc_first_vclock = [0, 3] ∧
     (wal_fallocate s_s4 10 orc_s4).requests = [1048576, 1048576]) := by
  refine ⟨?_, ?_, ?_, ?_, ?_, ?_, ?_, ?_, by decide⟩
  · intro s len orc h
    have hle : ¬ (2 * len ≤ s.cur_allocated) := by omega
    show (wal_fallocate_go (vclock_sum s.checkpoint_vclock) (2 * len)
        (s.wal_dir.length + 1) s orc [] false).requests.head? = _
    match orc with
    | [] => simp [wal_fallocate_go, if_neg hle]
    | FallocRes.ok :: rest => simp [wal_fallocate_go, if_neg hle]
    | FallocRes.eio :: rest => simp [wal_fallocate_go, if_neg hle]
    | FallocRes.enospc :: rest =>
      by_cases hg : xdir_has_garbage s.wal_dir
          (vclock_sum s.checkpoint_vclock) = true
      · simp only [wal_fallocate_go, if_neg hle, hg, if_true, List.nil_append]
        obtain ⟨t, ht⟩ := falloc_go_requests
          (vclock_sum s.checkpoint_vclock) (2 * len) s.wal_dir.length
          (wal_fallocate_retry_state (vclock_sum s.checkpoint_vclock) s)
          rest [max (2 * len) WAL_FALLOCATE_LEN] true
        rw [ht]
        simp
      · simp [wal_fallocate_go, if_neg hle, hg]
  · intro gcLsn len fuel s orc reqs del hle hg
    simp [wal_fallocate_go, if_neg hle, hg]
  · intro gcLsn s hg
    cases hdir : s.wal_dir with
    | nil => rw [hdir] at hg; simp [xdir_has_garbage] at hg
    | cons v rest =>
      rw [hdir] at hg
      simp only [xdir_has_garbage, decide_eq_true_eq] at hg
      refine ⟨?_, ?_, ?_⟩
      · simp only [wal_fallocate_retry_state, hdir,
          xdir_collect_garbage_one, if_pos hg, List.tail_cons]
        repeat' split
        all_goals rfl
      · simpa [hdir] using hg
      · simp only [wal_fallocate_retry_state, hdir,
          xdir_collect_garbage_one, if_pos hg, List.tail_cons]
        repeat' split
        all_goals rfl
  · exact falloc_retry_gc_first_raise
  · exact falloc_retry_gc_first_cases
  · intro gcLsn len fuel s orc reqs del hle hg
    constructor <;> simp [wal_fallocate_go, if_neg hle, hg]
  · intro iid s m orc h1 h2 h3
    simp only [wal_write_to_disk, if_neg h1, if_neg h2, if_pos h3]
    exact ⟨by trivial, by trivial, by trivial⟩
  · intro s len orc h
    exact falloc_go_dirchange _ _ _ s orc [] false h

/-- Witness for C5 (amended): scenario S4 run plus one concrete retry
step. -/
theorem c5_enospc_recovery_witness :
    s_s4.cur_allocated < 2 * 10 ∧
    (wal_fallocate s_s4 10 orc_s4).requests.head? = some 1048576 ∧
    xdir_has_garbage s_s4.wal_dir 3 = true ∧
    (wal_fallocate_retry_state 3 s_s4).wal_dir = s_s4.wal_dir.tail ∧
    (wal_fallocate s_s4 10 orc_s4).rc = 0 := by
  refine ⟨by decide, ?_, by decide, ?_, ?_⟩
  · rw [c5_enospc_recovery.1 s_s4 10 orc_s4 (by decide)]
    decide
  · exact (c5_enospc_recovery.2.2.1 3 s_s4 (by decide)).1
  · exact c5_enospc_recovery.2.2.2.2.2.2.2.2.1

theorem vclock_compare_not_gt (a b : VClock)
    (h1 : vclock_compare a b ≠ VCmp.gt)
    (h2 : vclock_compare a b ≠ VCmp.undef) :
    vclock_le a b = true := by
  cases hab : vclock_le a b
  · exfalso
    cases hba : vclock_le b a
    · exact h2 (by unfold vclock_compare; rw [hab, hba])
    · exact h1 (by unfold vclock_compare; rw [hab, hba])
  · rfl

theorem vclockset_match_mem (dir : List VClock) (k c : VClock)
    (h : vclockset_match dir k = some c) :
    c ∈ dir ∧ vclock_sum c ≤ vclock_sum k := by
  have hmem := mem_of_getLast? _ _ h
  have hf := List.mem_filter.mp hmem
  exact ⟨hf.1, by simpa using hf.2⟩

theorem gc_collect_point_le_min (s : WalState) (rmin : VClock)
    (hrmin : mclock_min s.mclock = some rmin) :
    vclock_sum (gc_collect_point s) ≤ vclock_sum rmin := by
  unfold gc_collect_point
  rw [hrmin]
  cases h : vclock_compare s.gc_first_vclock rmin with
  | gt => simp only [h]; exact le_refl _
  | undef => simp only [h]; exact le_refl _
  | lt =>
    simp only [h]
    exact vclock_le_sum _ _
      (vclock_compare_not_gt _ _ (by simp [h]) (by simp [h]))
  | eq =>
    simp only [h]
    exact vclock_le_sum _ _
      (vclock_compare_not_gt _ _ (by simp [h]) (by simp [h]))

theorem wal_collect_garbage_eq (s : WalState) :
    wal_collect_garbage s =
      match (if ¬ s.cur_open ∧
          vclock_sum s.vclock ≤ vclock_sum (gc_collect_point s)
        then some (gc_collect_point s)
        else vclockset_match s.wal_dir (gc_collect_point s)) with
      | some c =>
          ⟨{ s with
              wal_dir := xdir_collect_garbage_all s.wal_dir (vclock_sum c)
              gc_wal_vclock := second_vclock { s with
                wal_dir :=
                  xdir_collect_garbage_all s.wal_dir (vclock_sum c) } },
           some (((xdir_collect_garbage_all s.wal_dir
              (vclock_sum c)).head?).getD s.vclock)⟩
      | none => ⟨s, none⟩ := by
  rfl

/-- Counterexample to **C6** as stated: with `gc_first_vclock = {1:5}` and
matrix-clock minimum `{1:3}` over segments starting at signatures 1, 3, 5,
the source collects at the smaller point `{1:3}` (deleting only the first
segment), while the claim's `max` formula would collect at `{1:5}` and also
delete the `{1:3}` segment. -/
theorem c6_counterexample :
    mclock_min s_c6.mclock = some [0, 3] ∧
    vclock_compare s_c6.gc_first_vclock [0, 3] = VCmp.gt ∧
    (wal_collect_garbage s_c6).s.wal_dir = [[0, 3], [0, 5]] ∧
    (wal_collect_garbage_claimed s_c6).s.wal_dir = [[0, 5]] ∧
    (wal_collect_garbage s_c6).s.wal_dir
      ≠ (wal_collect_garbage_claimed s_c6).s.wal_dir := by
  decide

/-- **C6 (amended).**  On every wake of the WAL GC fiber the collection
point is `gc_first_vclock`, downgraded to `mclock.min()` when
`gc_first_vclock` is greater than or incomparable with it (so collection
never advances past the consumers' minimum); if no segment is open and the
point's signature has reached the writer's, all segments older than the
point are deleted, otherwise all segments older than the newest segment
whose starting vclock does not exceed the point are deleted (that segment
itself survives); then `gc_wal_vclock` is refreshed to the directory's
second vclock and TX is notified with the new oldest retained vclock. -/
theorem c6_wal_gc (s : WalState) :
    ((¬ s.cur_open ∧
        vclock_sum s.vclock ≤ vclock_sum (gc_collect_point s)) →
      (wal_collect_garbage s).s.wal_dir
        = s.wal_dir.dropWhile
            (fun v => decide (vclock_sum v
              < vclock_sum (gc_collect_point s)))) ∧
    (¬ (¬ s.cur_open ∧
        vclock_sum s.vclock ≤ vclock_sum (gc_collect_point s)) →
      ∀ c, vclockset_match s.wal_dir (gc_collect_point s) = some c →
        (wal_collect_garbage s).s.wal_dir
          = s.wal_dir.dropWhile
              (fun v => decide (vclock_sum v < vclock_sum c)) ∧
        c ∈ (wal_collect_garbage s).s.wal_dir) ∧
    (¬ (¬ s.cur_open ∧
        vclock_sum s.vclock ≤ vclock_sum (gc_collect_point s)) →
      vclockset_match s.wal_dir (gc_collect_point s) = none →
      (wal_collect_garbage s).s = s ∧
      (wal_collect_garbage s).notified = none) ∧
    (∀ rmin, mclock_min s.mclock = some rmin →
      ∀ v ∈ s.wal_dir, v ∉ (wal_collect_garbage s).s.wal_dir →
        vclock_sum v < vclock_sum rmin) ∧
    ((wal_collect_garbage s).notified ≠ none →
      (wal_collect_garbage s).s.gc_wal_vclock
        = second_vclock (wal_collect_garbage s).s ∧
      (wal_collect_garbage s).notified
        = some ((wal_collect_garbage s).s.wal_dir.head?.getD
            (wal_collect_garbage s).s.vclock)) := by
  refine ⟨?_, ?_, ?_, ?_, ?_⟩
  · intro hall
    rw [wal_collect_garbage_eq, if_pos hall]
    rfl
  · intro hnall c hm
    rw [wal_collect_garbage_eq, if_neg hnall, hm]
    constructor
    · rfl
    · have hc := vclockset_match_mem s.wal_dir _ c hm
      exact mem_dropWhile_of_mem _ s.wal_dir c hc.1 (by simp)
  · intro hnall hm
    rw [wal_collect_garbage_eq, if_neg hnall, hm]
    exact ⟨rfl, rfl⟩
  · intro rmin hrmin v hv hnv
    have hle := gc_collect_point_le_min s rmin hrmin
    by_cases hall : ¬ s.cur_open ∧
        vclock_sum s.vclock ≤ vclock_sum (gc_collect_point s)
    · rw [wal_collect_garbage_eq, if_pos hall] at hnv
      by_contra hge
      push_neg at hge
      refine hnv (mem_dropWhile_of_mem _ s.wal_dir v hv ?_)
      simp only [decide_eq_false_iff_not]
      omega
    · cases hm : vclockset_match s.wal_dir (gc_collect_point s) with
      | none =>
        rw [wal_collect_garbage_eq, if_neg hall, hm] at hnv
        exact absurd hv hnv
      | some c =>
        rw [wal_collect_garbage_eq, if_neg hall, hm] at hnv
        have hc := vclockset_match_mem s.wal_dir _ c hm
        by_contra hge
        push_neg at hge
        refine hnv (mem_dropWhile_of_mem _ s.wal_dir v hv ?_)
        simp only [decide_eq_false_iff_not]
        have := hc.2
        omega
  · intro h
    by_cases hall : ¬ s.cur_open ∧
        vclock_sum s.vclock ≤ vclock_sum (gc_collect_point s)
    · rw [wal_collect_garbage_eq, if_pos hall]
      exact ⟨rfl, rfl⟩
    · cases hm : vclockset_match s.wal_dir (gc_collect_point s) with
      | none =>
        rw [wal_collect_garbage_eq, if_neg hall, hm] at h
        exact absurd rfl h
      | some c =>
        rw [wal_collect_garbage_eq, if_neg hall, hm]
        exact ⟨rfl, rfl⟩

/-- Witness for C6 (amended): the lagging-consumer state, where GC collects
at the matrix-clock minimum `{1:3}`, keeps the matched segment and deletes
only the strictly older one. -/
theorem c6_wal_gc_witness :
    ¬ (¬ s_c6.cur_open = true ∧
        vclock_sum s_c6.vclock ≤ vclock_sum (gc_collect_point s_c6)) ∧
    vclockset_match s_c6.wal_dir (gc_collect_point s_c6) = some [0, 3] ∧
    (wal_collect_garbage s_c6).s.wal_dir
      = s_c6.wal_dir.dropWhile
          (fun v => decide (vclock_sum v < vclock_sum [0, 3])) ∧
    [0, 3] ∈ (wal_collect_garbage s_c6).s.wal_dir ∧
    vclock_sum [0, 1] < vclock_sum [0, 3] := by
  refine ⟨by decide, by decide, ?_, ?_, ?_⟩
  · exact ((c6_wal_gc s_c6).2.1 (by decide) [0, 3] (by decide)).1
  · exact ((c6_wal_gc s_c6).2.1 (by decide) [0, 3] (by decide)).2
  · exact (c6_wal_gc s_c6).2.2.2.1 [0, 3] (by decide) [0, 1] (by decide)
      (by decide)

theorem lor_rot (a b c : Nat) : (a ||| c) ||| b = (a ||| b) ||| c := by
  rw [Nat.lor_assoc, Nat.lor_comm c b, ← Nat.lor_assoc]

theorem winv_step (w : WatcherState) (op : WOp) (hv : wvalid w op = true)
    (hw : winv w) : winv (wstep w op) := by
  obtain ⟨hcount, hevents⟩ := hw
  cases op with
  | raise e =>
    by_cases hf : w.in_flight = true
    · constructor
      · simpa [winv, wstep, wal_watcher_notify, hf] using hcount
      · simp only [winv, wstep, wal_watcher_notify, hf, if_true]
        rw [← Nat.lor_assoc, hevents]
    · simp only [Bool.not_eq_true] at hf
      simp only [hf] at hcount
      constructor
      · simp [winv, wstep, wal_watcher_notify, hf, hcount]
      · simp [winv, wstep, wal_watcher_notify, hf]
        rw [lor_rot, hevents]
  | complete =>
    simp only [wvalid] at hv
    by_cases ha : w.attached = true
    · by_cases hp : w.pending_events = 0
      · constructor
        · simp [winv, wstep, wal_watcher_notify_complete, ha, hp]
          simp [hv] at hcount
          omega
        · simp [winv, wstep, wal_watcher_notify_complete, ha, hp]
          simpa [hp] using hevents
      · constructor
        · simp [winv, wstep, wal_watcher_notify_complete, wal_watcher_notify, ha, hp]
          simp [hv] at hcount
          omega
        · simp [winv, wstep, wal_watcher_notify_complete, wal_watcher_notify, ha, hp]
          simpa using hevents
    · simp only [Bool.not_eq_true] at ha
      constructor
      · simp [winv, wstep, wal_watcher_notify_complete, ha]
        simp [hv] at hcount
        omega
      · simp [winv, wstep, wal_watcher_notify_complete, ha]
        exact hevents
  | detach =>
    exact ⟨hcount, hevents⟩

theorem winv_run : ∀ (ops : List WOp) (w : WatcherState),
    wtrace_valid w ops = true → winv w → winv (wrun w ops) := by
  intro ops
  induction ops with
  | nil => intro w _ hw; exact hw
  | cons op rest ih =>
    intro w hv hw
    simp only [wtrace_valid, Bool.and_eq_true] at hv
    exact ih (wstep w op) hv.2 (winv_step w op hv.1 hw)

/-- **C8.**  For every WAL watcher, at most one notification message is in
flight at any time; events raised while one is en route are OR-ed into
`pending_events` and delivered as a single notification when the previous
one returns, so no event edge is lost; and a completion arriving after the
watcher has detached performs no resend. -/
theorem c8_watcher_protocol :
    (∀ ops : List WOp, wtrace_valid watcher_init ops = true →
      winv (wrun watcher_init ops)) ∧
    (∀ (w : WatcherState) (e : Nat), w.in_flight = true →
      (wstep w (WOp.raise e)).pushCount = w.pushCount ∧
      (wstep w (WOp.raise e)).pending_events = w.pending_events ||| e) ∧
    (∀ w : WatcherState, w.attached = false →
      wstep w WOp.complete
        = { w with
            in_flight := false
            completeCount := w.completeCount + 1 }) ∧
    (∀ w : WatcherState, w.attached = true → w.pending_events ≠ 0 →
      (wstep w WOp.complete).in_flight = true ∧
      (wstep w WOp.complete).msg_events = w.pending_events ∧
      (wstep w WOp.complete).pending_events = 0 ∧
      (wstep w WOp.complete).pushCount = w.pushCount + 1) := by
  refine ⟨?_, ?_, ?_, ?_⟩
  · intro ops hv
    exact winv_run ops watcher_init hv (by constructor <;> rfl)
  · intro w e hf
    simp [wstep, wal_watcher_notify, hf]
  · intro w ha
    simp [wstep, wal_watcher_notify_complete, ha]
  · intro w ha hp
    simp [wstep, wal_watcher_notify_complete, wal_watcher_notify, ha, hp]

/-- Witness for C8: a trace raising events 1 then 2 while the first
notification is en route, then completing twice. -/
theorem c8_watcher_protocol_witness :
    wtrace_valid watcher_init
      [WOp.raise 1, WOp.raise 2, WOp.complete, WOp.complete] = true ∧
    winv (wrun watcher_init
      [WOp.raise 1, WOp.raise 2, WOp.complete, WOp.complete]) := by
  constructor
  · decide
  · exact c8_watcher_protocol.1
      [WOp.raise 1, WOp.raise 2, WOp.complete, WOp.complete] (by decide)
